import Mathlib

/-!
Verification development for the seshat-swarm coordination core.

This file shallowly embeds the TypeScript coordination core (world model,
catalog lookup, transition matrix, compatibility rules, blast-radius engine,
constraint engine and role assignment) as executable Lean definitions, and
proves or refutes the frozen specification claims against that embedding.

Modelling conventions, applied uniformly:
* JavaScript numbers are idealized as exact rationals.
* JavaScript `Map` objects are embedded as association lists in insertion
  order; `Map.set` replaces in place when the key exists and appends
  otherwise, `Map.get` returns the first (unique) matching entry.
* JavaScript `Set` objects used purely as sets (blast radius) are embedded
  as `Finset String`; the source loops over them are order independent
  (this is argued in the comments at the relevant definitions).
* `vec3Distance` in the source returns the real square root of the sum of
  squared differences.  Every use of it in the embedded code compares the
  distance with a rational bound, so the embedding uses the equivalent
  comparison of squares (for a real `r`, `Real.sqrt d ≤ r ↔ 0 ≤ r ∧ d ≤ r ^ 2`
  and `r ≤ Real.sqrt d ↔ r ≤ 0 ∨ r ^ 2 ≤ d`), which keeps everything
  computable over ℚ.  Each such spot is marked.
* Record fields that no embedded operation ever reads (e.g. pattern
  generator configs, verification records, velocity/orientation telemetry)
  are omitted from the embedded structures; comments note each omission.
-/

-- =========================================================================
-- Section 1: the nine-dimensional type definitions (src/types/dimensions.ts)
-- =========================================================================

/-- Sigma: behavioral mode (what the drone is physically doing). -/
inductive BehavioralMode where
  | hover | translate | orbit | avoid | climb | descend | land | takeoff
  | dock | undock | grounded | docked | formationHold | formationTransition
  | relayHold
deriving DecidableEq, Repr

/-- Kappa: autonomy level. -/
inductive AutonomyLevel where
  | autonomous | operatorGuided | emergency | manual
deriving DecidableEq, Repr

/-- Chi: formation role. -/
inductive FormationRole where
  | leader | follower | relay | performer | chargerInbound | charging
  | chargerOutbound | scout | anchor | reserve
deriving DecidableEq, Repr

/-- Lambda: resource ownership. -/
inductive ResourceOwnership where
  | exclusiveVolume | sharedCorridor | yielding | energySource | energyStore
  | energyConsumer | commBridge
deriving DecidableEq, Repr

/-- Tau: physical traits (payload configuration). -/
inductive PhysicalTraits where
  | bare | solarEquipped | batteryCarrier | cameraEquipped | sensorExtended
  | dualDeck
deriving DecidableEq, Repr

/-- Rho: hardware target. -/
inductive HardwareTarget where
  | crazyflie21 | crazyflieBl | espDrone | simGazebo | simSimple
deriving DecidableEq, Repr

/-- Runtime list of all behavioral modes (BEHAVIORAL_MODES). -/
def BEHAVIORAL_MODES : List BehavioralMode :=
  [.hover, .translate, .orbit, .avoid, .climb, .descend, .land, .takeoff,
   .dock, .undock, .grounded, .docked, .formationHold, .formationTransition,
   .relayHold]

/-- A 3D vector (Vec3); components are idealized JS numbers. -/
structure Vec3 where
  x : ℚ
  y : ℚ
  z : ℚ
deriving DecidableEq, Repr

/-- Battery state within SensorState.  Only `percentage` is read by the
embedded operations; voltage, discharge rate and remaining time are
omitted. -/
structure BatteryState where
  percentage : ℚ
deriving DecidableEq, Repr

/-- Delta: sensor state.  The embedded operations read `position`,
`battery` and `position_quality` only; velocity, orientation, angular
velocity and wind estimate are omitted. -/
structure SensorState where
  position : Vec3
  battery : BatteryState
  position_quality : ℚ
deriving DecidableEq, Repr

/-- Epsilon: neighbor graph of a drone. -/
structure NeighborGraph where
  neighbors : List String
  leader : Option String
  followers : List String
  relay_target : Option String
  relay_source : Option String
  dock_target : Option String
  base_stations : List String
deriving DecidableEq, Repr

/-- CorePattern: the six structural dimensions. -/
structure CorePattern where
  sigma : BehavioralMode
  kappa : AutonomyLevel
  chi : FormationRole
  lambda : ResourceOwnership
  tau : PhysicalTraits
  rho : HardwareTarget
deriving DecidableEq, Repr

/-- DroneCoordinate: the full 9D state of a drone
(structural core plus epsilon, delta and the intent hash). -/
structure DroneCoordinate where
  sigma : BehavioralMode
  kappa : AutonomyLevel
  chi : FormationRole
  lambda : ResourceOwnership
  tau : PhysicalTraits
  rho : HardwareTarget
  epsilon : NeighborGraph
  delta : SensorState
  sigma_upper : String
deriving DecidableEq, Repr

/-- Extract the structural CorePattern from a full DroneCoordinate
(extractCore). -/
def extractCore (coord : DroneCoordinate) : CorePattern :=
  { sigma := coord.sigma, kappa := coord.kappa, chi := coord.chi,
    lambda := coord.lambda, tau := coord.tau, rho := coord.rho }

-- =========================================================================
-- Section 2: association-list helpers used to embed JavaScript Maps
-- =========================================================================

/-- Embedded `Map.get`: first entry with the given key (keys are unique in a
JS Map, so this is the entry). -/
def alGet {α : Type} (m : List (String × α)) (k : String) : Option α :=
  (m.find? (fun p => p.1 = k)).map (fun p => p.2)

/-- Embedded `Map.set`: replace in place when present, append otherwise. -/
def alSet {α : Type} (m : List (String × α)) (k : String) (v : α) :
    List (String × α) :=
  if m.any (fun p => p.1 = k) then
    m.map (fun p => if p.1 = k then (k, v) else p)
  else
    m ++ [(k, v)]

-- =========================================================================
-- Section 3: the sigma transition matrix (src/types/transitions.ts)
-- =========================================================================

/-- A source or target slot of a transition rule: a concrete mode or the
wildcard star. -/
inductive ModePat where
  | star
  | mode (m : BehavioralMode)
deriving DecidableEq, Repr

/-- A single rule of the transition matrix (TransitionRule).  The source
fields `from` and `to` are named `src` and `dst` here (`from` is a Lean
keyword); the unused `via` and `reason` fields are omitted. -/
structure TransitionRule where
  src : ModePat
  dst : ModePat
  valid : Bool
  transition_time_s : ℚ
deriving DecidableEq, Repr

/-- The initial transition matrix (TRANSITION_RULES), in source order. -/
def TRANSITION_RULES : List TransitionRule := [
  ⟨.star, .mode .avoid, true, mkRat 1 10⟩,
  ⟨.mode .grounded, .mode .takeoff, true, mkRat 1 2⟩,
  ⟨.mode .grounded, .mode .hover, false, 0⟩,
  ⟨.mode .grounded, .mode .translate, false, 0⟩,
  ⟨.mode .grounded, .mode .orbit, false, 0⟩,
  ⟨.mode .takeoff, .mode .hover, true, 1⟩,
  ⟨.mode .hover, .mode .translate, true, mkRat 1 2⟩,
  ⟨.mode .hover, .mode .orbit, true, mkRat 3 2⟩,
  ⟨.mode .hover, .mode .climb, true, mkRat 3 10⟩,
  ⟨.mode .hover, .mode .descend, true, mkRat 3 10⟩,
  ⟨.mode .hover, .mode .land, true, mkRat 1 2⟩,
  ⟨.mode .hover, .mode .dock, true, 1⟩,
  ⟨.mode .hover, .mode .formationHold, true, mkRat 1 2⟩,
  ⟨.mode .hover, .mode .relayHold, true, mkRat 3 10⟩,
  ⟨.mode .translate, .mode .hover, true, mkRat 1 2⟩,
  ⟨.mode .translate, .mode .dock, true, 1⟩,
  ⟨.mode .translate, .mode .relayHold, true, mkRat 1 2⟩,
  ⟨.mode .translate, .mode .orbit, true, 1⟩,
  ⟨.mode .translate, .mode .climb, true, mkRat 3 10⟩,
  ⟨.mode .translate, .mode .descend, true, mkRat 3 10⟩,
  ⟨.mode .translate, .mode .formationHold, true, mkRat 1 2⟩,
  ⟨.mode .orbit, .mode .hover, true, 1⟩,
  ⟨.mode .orbit, .mode .translate, true, 1⟩,
  ⟨.mode .avoid, .mode .hover, true, mkRat 1 2⟩,
  ⟨.mode .avoid, .mode .land, true, mkRat 1 2⟩,
  ⟨.mode .climb, .mode .hover, true, mkRat 3 10⟩,
  ⟨.mode .climb, .mode .translate, true, mkRat 3 10⟩,
  ⟨.mode .climb, .mode .descend, true, mkRat 1 2⟩,
  ⟨.mode .descend, .mode .hover, true, mkRat 3 10⟩,
  ⟨.mode .descend, .mode .translate, true, mkRat 3 10⟩,
  ⟨.mode .descend, .mode .land, true, mkRat 1 2⟩,
  ⟨.mode .land, .mode .grounded, true, 1⟩,
  ⟨.mode .dock, .mode .docked, true, 2⟩,
  ⟨.mode .docked, .mode .undock, true, 1⟩,
  ⟨.mode .undock, .mode .hover, true, 1⟩,
  ⟨.mode .undock, .mode .translate, true, 1⟩,
  ⟨.mode .formationHold, .mode .translate, true, mkRat 1 2⟩,
  ⟨.mode .formationHold, .mode .hover, true, mkRat 1 2⟩,
  ⟨.mode .formationHold, .mode .formationTransition, true, mkRat 3 10⟩,
  ⟨.mode .formationTransition, .mode .formationHold, true, 1⟩,
  ⟨.mode .formationTransition, .mode .hover, true, mkRat 1 2⟩,
  ⟨.mode .relayHold, .mode .hover, true, mkRat 3 10⟩,
  ⟨.mode .relayHold, .mode .translate, true, mkRat 1 2⟩]

/-- Look up the matching transition rule (findTransitionRule): exact match
first, then wildcard star-to-target, then source-to-star, else none. -/
def findTransitionRule (f t : BehavioralMode) : Option TransitionRule :=
  match TRANSITION_RULES.find?
      (fun r => decide (r.src = ModePat.mode f ∧ r.dst = ModePat.mode t)) with
  | some r => some r
  | none =>
    match TRANSITION_RULES.find?
        (fun r => decide (r.src = ModePat.star ∧ r.dst = ModePat.mode t)) with
    | some r => some r
    | none =>
      match TRANSITION_RULES.find?
          (fun r => decide (r.src = ModePat.mode f ∧ r.dst = ModePat.star)) with
      | some r => some r
      | none => none

/-- Check if a sigma-to-sigma transition is valid (isTransitionValid):
self-transitions are always valid, otherwise a matching rule with
valid set must exist. -/
def isTransitionValid (f t : BehavioralMode) : Bool :=
  if f = t then true
  else
    match findTransitionRule f t with
    | some r => r.valid
    | none => false

-- =========================================================================
-- Section 4: catalog types (src/catalog/types.ts)
-- =========================================================================

/-- Entry requirements of a pattern (PatternPreconditions).  The optional
`hardware_requirements` field is never read by the embedded operations and
is omitted. -/
structure PatternPreconditions where
  battery_floor : ℚ
  position_quality_floor : ℚ
  min_references : ℕ
  valid_from : List String
deriving DecidableEq, Repr

/-- A condition that forces exit to a specific pattern (ForcedExit). -/
structure ForcedExit where
  condition : String
  target_pattern : String
deriving DecidableEq, Repr

/-- Exit conditions of a pattern (PatternPostconditions). -/
structure PatternPostconditions where
  valid_to : List String
  forced_exits : List ForcedExit
deriving DecidableEq, Repr

/-- A behavioral pattern (BehavioralPattern).  The `description`,
`generator` and `verification` fields are never read by the embedded
operations and are omitted. -/
structure BehavioralPattern where
  id : String
  core : CorePattern
  preconditions : PatternPreconditions
  postconditions : PatternPostconditions
deriving DecidableEq, Repr

/-- A pairwise compatibility rule (CompatibilityRule); the `reason` field is
omitted. -/
structure CompatibilityRule where
  pattern_a : String
  pattern_b : String
  compatible : Bool
  min_separation_m : ℚ
deriving DecidableEq, Repr

/-- The loaded catalog (BehavioralCatalog): patterns indexed by id (a JS Map,
embedded as an association list in insertion order) plus compatibility
rules. -/
structure BehavioralCatalog where
  patterns : List (String × BehavioralPattern)
  compatibility : List CompatibilityRule
deriving DecidableEq, Repr

-- =========================================================================
-- Section 5: catalog lookup, filtering, compatibility, transition validity
-- (src/catalog/lookup.ts)
-- =========================================================================

/-- Look up a pattern by id (lookupPattern); none if absent. -/
def lookupPattern (catalog : BehavioralCatalog) (id : String) :
    Option BehavioralPattern :=
  alGet catalog.patterns id

/-- A partial core specification for filterByCore (Partial of CorePattern).
The source calls this `partial`, which is a reserved Lean token. -/
structure CoreFilter where
  sigma : Option BehavioralMode
  kappa : Option AutonomyLevel
  chi : Option FormationRole
  lambda : Option ResourceOwnership
  tau : Option PhysicalTraits
  rho : Option HardwareTarget
deriving DecidableEq, Repr

/-- The all-unspecified core filter, for building filters by record update. -/
def CoreFilter.none : CoreFilter := ⟨Option.none, Option.none, Option.none,
  Option.none, Option.none, Option.none⟩

/-- Does a pattern match every specified field of the partial core spec
(the match check inside filterByCore)? -/
def matchesCore (sel : CoreFilter) (pattern : BehavioralPattern) : Bool :=
  (match sel.sigma with | some s => decide (pattern.core.sigma = s) | none => true) &&
  (match sel.kappa with | some s => decide (pattern.core.kappa = s) | none => true) &&
  (match sel.chi with | some s => decide (pattern.core.chi = s) | none => true) &&
  (match sel.lambda with | some s => decide (pattern.core.lambda = s) | none => true) &&
  (match sel.tau with | some s => decide (pattern.core.tau = s) | none => true) &&
  (match sel.rho with | some s => decide (pattern.core.rho = s) | none => true)

/-- Filter catalog patterns by a partial core specification (filterByCore).
Iterates the map values in insertion order. -/
def filterByCore (catalog : BehavioralCatalog) (sel : CoreFilter) :
    List BehavioralPattern :=
  (catalog.patterns.map (fun p => p.2)).filter (fun p => matchesCore sel p)

/-- Split a glob at star characters into its literal segments, as JS
String.split does: a star at either end yields an empty segment there. -/
def splitStar : List Char → List (List Char)
  | [] => [[]]
  | c :: rest =>
    if c = '*' then [] :: splitStar rest
    else
      match splitStar rest with
      | s :: ss => (c :: s) :: ss
      | [] => [[c]]

/-- First index at or after start where the needle occurs in the haystack
(JS String.indexOf with a fromIndex, for a nonempty needle). -/
def findFrom (needle hay : List Char) (start : ℕ) : Option ℕ :=
  (List.range (hay.length + 1)).find?
    (fun i => decide (start ≤ i) && needle.isPrefixOf (hay.drop i))

/-- Process the middle segments of a glob in order, threading the search
position; none means the glob fails to match. -/
def matchSegsFrom (id : List Char) : List (List Char) → ℕ → Option ℕ
  | [], searchFrom => some searchFrom
  | seg :: rest, searchFrom =>
    if seg = [] then matchSegsFrom id rest searchFrom
    else
      match findFrom seg id searchFrom with
      | none => none
      | some idx => matchSegsFrom id rest (idx + seg.length)

/-- Test whether a pattern ID matches a compatibility-rule glob
(matchesPattern): star is a universal wildcard; otherwise the glob is split
at stars into literal segments, a leading nonempty segment forces a prefix,
a trailing nonempty segment forces a non-overlapping suffix, and middle
segments must appear in order; a glob without a star is an exact match. -/
def matchesPattern (patternId rulePattern : String) : Bool :=
  if rulePattern = "*" then true
  else if rulePattern.data.contains '*' then
    let segs := splitStar rulePattern.data
    let id := patternId.data
    match segs with
    | [] => true
    | first :: _ =>
      let afterFirst : Option ℕ :=
        if first = [] then some 0
        else if first.isPrefixOf id then some first.length
        else Option.none
      match afterFirst with
      | none => false
      | some searchFrom =>
        let middles := (segs.drop 1).dropLast
        match matchSegsFrom id middles searchFrom with
        | none => false
        | some searchFrom2 =>
          let lastSeg := segs.getLastD []
          if lastSeg = [] then true
          else
            lastSeg.isSuffixOf id &&
              decide (searchFrom2 + lastSeg.length ≤ id.length)
  else decide (patternId = rulePattern)

/-- Score a compatibility rule by specificity (ruleSpecificity): 2 per side
for an exact glob, 1 for a glob containing a star, 0 for the universal
star. -/
def ruleSpecificity (rule : CompatibilityRule) : ℕ :=
  (if rule.pattern_a = "*" then 0
   else if rule.pattern_a.data.contains '*' then 1
   else 2) +
  (if rule.pattern_b = "*" then 0
   else if rule.pattern_b.data.contains '*' then 1
   else 2)

/-- Does a rule match the pair of pattern ids in either orientation
(the match test inside isCompatible)? -/
def matchesRule (rule : CompatibilityRule) (patternA patternB : String) :
    Bool :=
  (matchesPattern patternA rule.pattern_a &&
    matchesPattern patternB rule.pattern_b) ||
  (matchesPattern patternA rule.pattern_b &&
    matchesPattern patternB rule.pattern_a)

/-- The best-rule selection loop of isCompatible: the first matching rule
attaining the maximal specificity (initial best specificity is minus one,
so any match beats no rule). -/
def findBestRule (rules : List CompatibilityRule)
    (patternA patternB : String) : Option CompatibilityRule :=
  rules.foldl
    (fun best rule =>
      if matchesRule rule patternA patternB then
        match best with
        | none => some rule
        | some br =>
          if ruleSpecificity rule > ruleSpecificity br then some rule
          else best
      else best)
    none

/-- Check whether two patterns are compatible at a given separation
(isCompatible): no matching rule means compatible; otherwise the most
specific rule decides and, when compatible, the separation must meet its
minimum. -/
def isCompatible (catalog : BehavioralCatalog) (patternA patternB : String)
    (separation_m : ℚ) : Bool :=
  match findBestRule catalog.compatibility patternA patternB with
  | none => true
  | some rule =>
    if !rule.compatible then false
    else decide (rule.min_separation_m ≤ separation_m)

/-- Check whether a pattern-level transition is valid
(isPatternTransitionValid): both patterns must exist, the target must be in
the source's valid_to, the source in the target's valid_from, and the
sigma-level rule lookup must yield a valid rule.  There is no special case
for equal ids. -/
def isPatternTransitionValid (catalog : BehavioralCatalog)
    (fromId toId : String) : Bool :=
  match lookupPattern catalog fromId, lookupPattern catalog toId with
  | some fromPattern, some toPattern =>
    if !(fromPattern.postconditions.valid_to.contains toId) then false
    else if !(toPattern.preconditions.valid_from.contains fromId) then false
    else
      match findTransitionRule fromPattern.core.sigma toPattern.core.sigma with
      | some sigmaRule => sigmaRule.valid
      | none => false
  | _, _ => false

-- =========================================================================
-- Section 6: world model (src/coordinator/world-model.ts)
-- =========================================================================

/-- World-model configuration (WorldModelConfig). -/
structure WorldModelConfig where
  commRange : ℚ
  staleThresholdMs : ℚ
deriving DecidableEq, Repr

/-- The default configuration (DEFAULT_CONFIG). -/
def DEFAULT_CONFIG : WorldModelConfig := ⟨5, 500⟩

/-- Per-drone state tracked by the world model (DroneState). -/
structure DroneState where
  id : String
  coordinate : DroneCoordinate
  currentPattern : String
  lastTelemetry : SensorState
  lastUpdate : ℚ
  stale : Bool
deriving DecidableEq, Repr

/-- Result of comparing two drone states (DeltaResult). -/
structure DeltaResult where
  changed : Bool
  structural : Bool
  changedDimensions : List String
deriving DecidableEq, Repr

/-- The no-change result (NO_CHANGE). -/
def NO_CHANGE : DeltaResult := ⟨false, false, []⟩

/-- The world model: configuration plus the drone map (a JS Map embedded as
an association list in insertion order). -/
structure WorldModel where
  config : WorldModelConfig
  drones : List (String × DroneState)
deriving DecidableEq, Repr

/-- Squared euclidean distance between two points.  The source's
vec3Distance returns the square root of this; every comparison against it
is embedded as the equivalent comparison of squares. -/
def vec3DistSq (a b : Vec3) : ℚ :=
  (a.x - b.x) ^ 2 + (a.y - b.y) ^ 2 + (a.z - b.z) ^ 2

/-- Embeds the source comparison vec3Distance a b ≤ r (real square root
against a rational bound): equivalent to 0 ≤ r and squared distance ≤ r². -/
def distLe (a b : Vec3) (r : ℚ) : Bool :=
  decide (0 ≤ r) && decide (vec3DistSq a b ≤ r ^ 2)

/-- Get a drone's current state (WorldModel.getDrone). -/
def getDrone (world : WorldModel) (id : String) : Option DroneState :=
  alGet world.drones id

/-- All active (non-stale) drone ids, in map insertion order
(WorldModel.getActiveDroneIds). -/
def getActiveDroneIds (world : WorldModel) : List String :=
  ((world.drones.map (fun p => p.2)).filter (fun d => !d.stale)).map
    (fun d => d.id)

/-- Accumulator threaded through the computeNeighborGraph loop: the
fields the source mutates while iterating the drone map. -/
structure NeighborAcc where
  neighbors : List String
  leader : Option String
  followers : List String
  relayTarget : Option String
  relaySource : Option String
deriving DecidableEq, Repr

/-- One iteration of the computeNeighborGraph loop for map entry (otherId,
other): skip self, test communication range, then derive role relationships
using this drone's chi (looked up fresh from the map each iteration — the
map is unchanged during the loop, so the lookup is constant). -/
def neighborStep (world : WorldModel) (droneId : String) (position : Vec3)
    (acc : NeighborAcc) (entry : String × DroneState) : NeighborAcc :=
  let otherId := entry.1
  let other := entry.2
  if otherId = droneId then acc
  else if distLe position other.lastTelemetry.position
      world.config.commRange then
    let acc := { acc with neighbors := acc.neighbors ++ [otherId] }
    match getDrone world droneId with
    | none => acc
    | some myDrone =>
      let acc :=
        if myDrone.coordinate.chi = FormationRole.follower ∧
            other.coordinate.chi = FormationRole.leader then
          { acc with leader := some otherId }
        else acc
      let acc :=
        if myDrone.coordinate.chi = FormationRole.leader ∧
            other.coordinate.chi = FormationRole.follower then
          { acc with followers := acc.followers ++ [otherId] }
        else acc
      let acc :=
        if myDrone.coordinate.chi = FormationRole.relay then
          { acc with relayTarget := some otherId }
        else acc
      let acc :=
        if other.coordinate.chi = FormationRole.relay then
          { acc with relaySource := some otherId }
        else acc
      acc
  else acc

/-- Compute the neighbor graph for a drone at a given position
(WorldModel.computeNeighborGraph): all other drones within communication
range, plus derived role relationships; dock_target and base_stations are
not populated here. -/
def computeNeighborGraph (world : WorldModel) (droneId : String)
    (position : Vec3) : NeighborGraph :=
  let acc := world.drones.foldl (neighborStep world droneId position)
    ⟨[], none, [], none, none⟩
  { neighbors := acc.neighbors, leader := acc.leader,
    followers := acc.followers, relay_target := acc.relayTarget,
    relay_source := acc.relaySource, dock_target := none,
    base_stations := [] }

/-- Get the stored neighbor graph of a drone (WorldModel.getNeighborGraph). -/
def getNeighborGraph (world : WorldModel) (droneId : String) :
    Option NeighborGraph :=
  (getDrone world droneId).map (fun d => d.coordinate.epsilon)

/-- Add a new drone to the world model (WorldModel.addDrone).  The source
reads Date.now(); the ambient time is passed explicitly as `now`.  The
neighbor graph is computed before the new drone is inserted, exactly as in
the source.  The source returns the new state; the updated world is
returned here (the state is recoverable via getDrone). -/
def addDrone (world : WorldModel) (id : String) (rho : HardwareTarget)
    (tau : PhysicalTraits) (initialPattern : String)
    (telemetry : SensorState) (now : ℚ) : WorldModel :=
  let coordinate : DroneCoordinate :=
    { sigma := .grounded, kappa := .autonomous, chi := .reserve,
      lambda := .sharedCorridor, tau := tau, rho := rho,
      epsilon := computeNeighborGraph world id telemetry.position,
      delta := telemetry, sigma_upper := "" }
  let state : DroneState :=
    { id := id, coordinate := coordinate, currentPattern := initialPattern,
      lastTelemetry := telemetry, lastUpdate := now, stale := false }
  { world with drones := alSet world.drones id state }

/-- Remove a drone (WorldModel.removeDrone); returns the updated world and
whether a drone was removed. -/
def removeDrone (world : WorldModel) (id : String) : WorldModel × Bool :=
  let found := world.drones.any (fun p => p.1 = id)
  ({ world with drones := world.drones.filter (fun p => p.1 ≠ id) }, found)

/-- Update a drone's sensor state from telemetry
(WorldModel.updateTelemetry): no-op if unknown; updates delta, lastUpdate,
clears stale, then recomputes this drone's neighbor graph against the map
as it stands after those field updates (the loop skips the drone itself and
its chi is unchanged, so this matches the source's in-place mutation). -/
def updateTelemetry (world : WorldModel) (droneId : String)
    (telemetry : SensorState) (now : ℚ) : WorldModel :=
  match getDrone world droneId with
  | none => world
  | some _ =>
    let world1 : WorldModel :=
      { world with
        drones := world.drones.map (fun p =>
          if p.1 = droneId then
            (p.1, { p.2 with
              lastTelemetry := telemetry,
              coordinate := { p.2.coordinate with delta := telemetry },
              lastUpdate := now,
              stale := false })
          else p) }
    let eps := computeNeighborGraph world1 droneId telemetry.position
    { world1 with
      drones := world1.drones.map (fun p =>
        if p.1 = droneId then
          (p.1, { p.2 with
            coordinate := { p.2.coordinate with epsilon := eps } })
        else p) }

/-- Compare two core patterns and classify the change
(WorldModel.detectDelta). -/
def detectDelta (oldCore newCore : CorePattern) : DeltaResult :=
  let changed : List String :=
    (if oldCore.sigma ≠ newCore.sigma then ["sigma"] else []) ++
    (if oldCore.kappa ≠ newCore.kappa then ["kappa"] else []) ++
    (if oldCore.chi ≠ newCore.chi then ["chi"] else []) ++
    (if oldCore.lambda ≠ newCore.lambda then ["lambda"] else []) ++
    (if oldCore.tau ≠ newCore.tau then ["tau"] else []) ++
    (if oldCore.rho ≠ newCore.rho then ["rho"] else [])
  { changed := changed.length > 0, structural := changed.length > 0,
    changedDimensions := changed }

/-- Apply the updatePattern field mutations to one drone state. -/
def applyPatternFields (d : DroneState) (patternId : String)
    (sigma : BehavioralMode) (kappa : AutonomyLevel) (chi : FormationRole)
    (lambda : ResourceOwnership) : DroneState :=
  { d with
    currentPattern := patternId,
    coordinate := { d.coordinate with
      sigma := sigma, kappa := kappa, chi := chi, lambda := lambda } }

/-- Update a drone's structural coordinates (WorldModel.updatePattern):
no-op returning NO_CHANGE if the drone is unknown; otherwise mutates
currentPattern, sigma, kappa, chi and lambda and returns the delta between
the old and new cores. -/
def updatePattern (world : WorldModel) (droneId : String)
    (patternId : String) (sigma : BehavioralMode) (kappa : AutonomyLevel)
    (chi : FormationRole) (lambda : ResourceOwnership) :
    WorldModel × DeltaResult :=
  match getDrone world droneId with
  | none => (world, NO_CHANGE)
  | some drone =>
    let oldCore := extractCore drone.coordinate
    let newState := applyPatternFields drone patternId sigma kappa chi lambda
    let world1 : WorldModel :=
      { world with
        drones := world.drones.map (fun p =>
          if p.1 = droneId then
            (p.1, applyPatternFields p.2 patternId sigma kappa chi lambda)
          else p) }
    (world1, detectDelta oldCore (extractCore newState.coordinate))

/-- Mark drones as stale when telemetry is too old
(WorldModel.markStaleDrones): updates every drone's stale flag and returns
the ids that newly became stale, in map order. -/
def markStaleDrones (world : WorldModel) (now : ℚ) :
    WorldModel × List String :=
  let thr := world.config.staleThresholdMs
  let world1 : WorldModel :=
    { world with
      drones := world.drones.map (fun p =>
        (p.1, { p.2 with stale := decide (now - p.2.lastUpdate > thr) })) }
  let staleIds := world.drones.filterMap (fun p =>
    if decide (now - p.2.lastUpdate > thr) && !p.2.stale then some p.2.id
    else none)
  (world1, staleIds)

-- =========================================================================
-- Section 7: blast-radius engine (src/coordinator/blast-radius.ts)
-- =========================================================================

/-- Turn an optional id into the set containing it, if any. -/
def optToFinset (o : Option String) : Finset String :=
  match o with
  | some x => {x}
  | none => ∅

/-- Add role-dependent drones to the affected set (addRoleDependents):
followers of a leader, the leader of a follower, the relay target of a
relay, and the relay source when present. -/
def addRoleDependents (affected : Finset String) (drone : DroneState)
    (graph : NeighborGraph) : Finset String :=
  let affected :=
    if drone.coordinate.chi = FormationRole.leader then
      affected ∪ graph.followers.toFinset
    else affected
  let affected :=
    if drone.coordinate.chi = FormationRole.follower then
      affected ∪ optToFinset graph.leader
    else affected
  let affected :=
    if drone.coordinate.chi = FormationRole.relay then
      affected ∪ optToFinset graph.relay_target
    else affected
  affected ∪ optToFinset graph.relay_source

/-- Compute the set of drones affected by a state change in the given drone
(computeBlastRadius): the drone itself, its spatial neighbors, and its role
dependents; just the drone itself when it is unknown. -/
def computeBlastRadius (world : WorldModel) (changedDroneId : String) :
    Finset String :=
  let affected : Finset String := {changedDroneId}
  match getDrone world changedDroneId with
  | none => affected
  | some drone =>
    let graph := drone.coordinate.epsilon
    addRoleDependents (affected ∪ graph.neighbors.toFinset) drone graph

/-- State of the cascade loop of computeCascadingBlastRadius: the
evaluated, affected and frontier sets. -/
structure CascadeState where
  evaluated : Finset String
  affected : Finset String
  frontier : Finset String
deriving DecidableEq

/-- One iteration of the cascade while-loop.  The source's inner for-loop
over the frontier is order independent: the predicate is invoked on every
frontier member; affected gains the blast radius of every frontier member
on which the predicate holds; and an id enters the next frontier exactly
when it is in one of those radii but neither in evaluated-at-loop-entry nor
in the current frontier (mid-loop additions to evaluated are all frontier
members, which are excluded anyway).  On an empty frontier the state is
returned unchanged (the while-loop exits).  cascadeNewIds is the union of
the blast radii of the predicate-true frontier members. -/
def cascadeNewIds (world : WorldModel) (wouldChange : String → Bool)
    (s : CascadeState) : Finset String :=
  (s.frontier.filter (fun j => wouldChange j = true)).biUnion
    (fun j => computeBlastRadius world j)

def cascadeStep (world : WorldModel) (wouldChange : String → Bool)
    (s : CascadeState) : CascadeState :=
  if s.frontier = ∅ then s
  else
    { evaluated := s.evaluated ∪ s.frontier,
      affected := s.affected ∪ cascadeNewIds world wouldChange s,
      frontier := cascadeNewIds world wouldChange s \
        (s.evaluated ∪ s.frontier) }

/-- Union of the blast radii of the initially changed drones (phase 1 of
computeCascadingBlastRadius). -/
def blastBase (world : WorldModel) (changedDroneIds : List String) :
    Finset String :=
  changedDroneIds.foldl (fun acc id => acc ∪ computeBlastRadius world id) ∅

/-- Initial cascade state: evaluated is the initial changed set, affected
the union of its blast radii, and the frontier the affected ids not yet
evaluated. -/
def cascadeInit (world : WorldModel) (changedDroneIds : List String) :
    CascadeState :=
  ⟨changedDroneIds.toFinset, blastBase world changedDroneIds,
    blastBase world changedDroneIds \ changedDroneIds.toFinset⟩

/-- Compute the blast radius with cascade propagation
(computeCascadingBlastRadius).  Without a predicate this is the union of
the initial radii.  With one, the while-loop runs until the frontier is
empty; the frontier provably empties within `world.drones.length` steps
(see the cascade termination theorem below) and an empty frontier is a
fixed point of cascadeStep, so iterating the step that many times is the
loop. -/
def computeCascadingBlastRadius (changedDroneIds : List String)
    (world : WorldModel) (wouldChange : Option (String → Bool)) :
    Finset String :=
  match wouldChange with
  | none => blastBase world changedDroneIds
  | some p =>
    ((cascadeStep world p)^[world.drones.length]
      (cascadeInit world changedDroneIds)).affected

/-- The set of drone ids present in the world map. -/
def worldKeys (world : WorldModel) : Finset String :=
  (world.drones.map (fun p => p.1)).toFinset

/-- Invariant of the cascade loop, relative to the initial changed set C:
the frontier is disjoint from the evaluated set, C is evaluated from the
start, every affected id is evaluated or queued, and every evaluated
non-initial id on which the predicate holds already has its whole blast
radius inside the affected set. -/
def CascadeInv (world : WorldModel) (wouldChange : String → Bool)
    (C : Finset String) (s : CascadeState) : Prop :=
  Disjoint s.frontier s.evaluated ∧
  C ⊆ s.evaluated ∧
  s.affected ⊆ s.evaluated ∪ s.frontier ∧
  ∀ j ∈ s.evaluated, j ∉ C → wouldChange j = true →
    computeBlastRadius world j ⊆ s.affected

-- =========================================================================
-- Section 8: constraint engine (src/coordinator/constraint-engine.ts)
-- =========================================================================

/-- A pattern assignment for a single drone (Assignment).  The optional
targetPos and targetVel fields are never set by the solver and are
omitted. -/
structure Assignment where
  droneId : String
  patternId : String
deriving DecidableEq, Repr

/-- Swarm-level objective kind (SwarmObjective.type). -/
inductive ObjectiveType where
  | formation | orbit | translate | hover | landAll
deriving DecidableEq, Repr

/-- A swarm-level objective (SwarmObjective).  Only the type is read by the
solver; targetPos and params are omitted. -/
structure SwarmObjective where
  type : ObjectiveType
deriving DecidableEq, Repr

/-- Word character test of the regex class backslash-w. -/
def isWordChar (c : Char) : Bool :=
  c.isAlpha || c.isDigit || c = '_'

/-- Accumulate a run of decimal digits into a natural number. -/
def digitsToNat (cs : List Char) : ℕ :=
  cs.foldl (fun acc c => acc * 10 + (c.toNat - 48)) 0

/-- Parse a JS float from a run of digits and dots as parseFloat does: an
integer part, then optionally a dot and a fraction part, ignoring anything
after; none when no digit is parsed (NaN). -/
def parseFloatQ (cs : List Char) : Option ℚ :=
  let ip := cs.takeWhile Char.isDigit
  let rest := cs.drop ip.length
  let ipVal : ℚ := mkRat (Int.ofNat (digitsToNat ip)) 1
  match rest with
  | '.' :: rest2 =>
    let fp := rest2.takeWhile Char.isDigit
    if ip = [] ∧ fp = [] then none
    else
      some (ipVal +
        mkRat (Int.ofNat (digitsToNat fp)) (10 ^ fp.length))
  | _ => if ip = [] then none else some ipVal

/-- Evaluate a condition string against drone state (evaluateCondition).
The recognized grammar is the regex caret w-plus star-lt star-digits-dots
dollar: a field name, a less-than sign with optional whitespace, and a
numeric threshold filling the rest of the string.  Unknown fields and
malformed conditions (including NaN thresholds) are false. -/
def evaluateCondition (condition : String) (drone : DroneState) : Bool :=
  let cs := condition.data
  let fieldChars := cs.takeWhile isWordChar
  if fieldChars = [] then false
  else
    let rest1 := (cs.drop fieldChars.length).dropWhile Char.isWhitespace
    match rest1 with
    | '<' :: rest2 =>
      let thrChars := rest2.dropWhile Char.isWhitespace
      if thrChars = [] then false
      else if !(thrChars.all (fun c => c.isDigit || c = '.')) then false
      else
        match parseFloatQ thrChars with
        | none => false
        | some threshold =>
          let field := String.mk fieldChars
          if field = "battery" then
            decide (drone.lastTelemetry.battery.percentage < threshold)
          else if field = "position_quality" then
            decide (drone.lastTelemetry.position_quality < threshold)
          else false
    | _ => false

/-- Check forced exits of a pattern against a drone (checkForcedExits):
the target of the first forced exit whose condition evaluates true. -/
def checkForcedExits (drone : DroneState) (pattern : BehavioralPattern) :
    Option String :=
  match pattern.postconditions.forced_exits.find?
      (fun e => evaluateCondition e.condition drone) with
  | some e => some e.target_pattern
  | none => none

/-- Map from objective type to the sigma value it prefers
(OBJECTIVE_SIGMA_MAP). -/
def objectiveSigma : ObjectiveType → BehavioralMode
  | .formation => .formationHold
  | .orbit => .orbit
  | .translate => .translate
  | .hover => .hover
  | .landAll => .land

/-- Score a candidate pattern for a drone (scoreCandidate): stability,
objective match, role continuity and a low-battery penalty. -/
def scoreCandidate (candidate : BehavioralPattern) (drone : DroneState)
    (objectives : List SwarmObjective) : ℚ :=
  let score : ℚ := 0
  let score := if candidate.id = drone.currentPattern then score + 10
    else score
  let score := objectives.foldl
    (fun s obj =>
      if objectiveSigma obj.type = candidate.core.sigma then s + 5 else s)
    score
  let score := if candidate.core.chi = drone.coordinate.chi then score + 2
    else score
  if candidate.preconditions.battery_floor > mkRat 3 10 ∧
      drone.lastTelemetry.battery.percentage < mkRat 1 2 then
    score - 5
  else score

/-- Check a pattern's preconditions against a drone's state
(meetsPreconditions): battery floor, position-quality floor and reference
count (neighbors plus base stations). -/
def meetsPreconditions (pattern : BehavioralPattern) (drone : DroneState) :
    Bool :=
  if drone.lastTelemetry.battery.percentage <
      pattern.preconditions.battery_floor then false
  else if drone.lastTelemetry.position_quality <
      pattern.preconditions.position_quality_floor then false
  else
    let refCount := drone.coordinate.epsilon.neighbors.length +
      drone.coordinate.epsilon.base_stations.length
    decide (refCount ≥ pattern.preconditions.min_references)

/-- isCompatible applied at a geometric separation given by its squared
distance: the source compares vec3Distance (a real square root) with the
rule's minimum separation, embedded as the equivalent comparison of squares
(min ≤ sqrt d iff min ≤ 0 or min² ≤ d). -/
def isCompatibleSqDist (catalog : BehavioralCatalog)
    (patternA patternB : String) (distSq : ℚ) : Bool :=
  match findBestRule catalog.compatibility patternA patternB with
  | none => true
  | some rule =>
    if !rule.compatible then false
    else
      decide (rule.min_separation_m ≤ 0) ||
        decide (rule.min_separation_m ^ 2 ≤ distSq)

/-- Check a candidate against all already-assigned neighbors
(isCompatibleWithNeighbors): each neighbor's pattern is its assignment made
earlier in this solve call, or else its current pattern; neighbors missing
from the world are skipped. -/
def isCompatibleWithNeighbors (candidate : BehavioralPattern)
    (drone : DroneState) (world : WorldModel)
    (catalog : BehavioralCatalog)
    (assignedPatterns : List (String × String)) : Bool :=
  drone.coordinate.epsilon.neighbors.all (fun neighborId =>
    let neighborPattern :=
      match alGet assignedPatterns neighborId with
      | some p => some p
      | none =>
        match getDrone world neighborId with
        | some nd => some nd.currentPattern
        | none => none
    match neighborPattern with
    | none => true
    | some np =>
      match getDrone world neighborId with
      | none => true
      | some neighborDrone =>
        isCompatibleSqDist catalog candidate.id np
          (vec3DistSq drone.lastTelemetry.position
            neighborDrone.lastTelemetry.position))

/-- Stable insertion of an element into a sorted list: the inserted element
(earlier in the original list) goes before any equal element. -/
def insertSorted {α : Type} (le : α → α → Bool) (x : α) :
    List α → List α
  | [] => [x]
  | y :: ys => if le x y then x :: y :: ys else y :: insertSorted le x ys

/-- Stable sort by a boolean total preorder, matching the stable JS
Array.sort for consistent comparators. -/
def sortBy {α : Type} (le : α → α → Bool) : List α → List α
  | [] => []
  | x :: xs => insertSorted le x (sortBy le xs)

/-- The reduce step of findFallbackHover: keep the pattern with the
strictly lower battery floor, the earlier one on ties. -/
def hoverPick (best p : BehavioralPattern) : BehavioralPattern :=
  if p.preconditions.battery_floor < best.preconditions.battery_floor
  then p else best

/-- Find a hover pattern for this drone's hardware with the lowest battery
floor (findFallbackHover); none when no hover pattern fits the hardware. -/
def findFallbackHover (drone : DroneState) (catalog : BehavioralCatalog) :
    Option BehavioralPattern :=
  match filterByCore catalog
    { CoreFilter.none with
      sigma := some BehavioralMode.hover,
      rho := some drone.coordinate.rho,
      tau := some drone.coordinate.tau } with
  | [] => none
  | h :: t => some (t.foldl hoverPick h)

/-- Find an emergency pattern with zero battery floor for this drone's
hardware (findEmergencyFallback), preferring land or grounded sigma;
the match binds the filtered emergency list whole (e :: rest is the list
the source calls emergency). -/
def findEmergencyFallback (drone : DroneState)
    (catalog : BehavioralCatalog) : Option BehavioralPattern :=
  match (filterByCore catalog
    { CoreFilter.none with
      rho := some drone.coordinate.rho,
      tau := some drone.coordinate.tau }).filter
      (fun p => decide (p.preconditions.battery_floor = 0)) with
  | [] => none
  | e :: rest =>
    match (e :: rest).find? (fun p =>
        decide (p.core.sigma = BehavioralMode.land) ||
        decide (p.core.sigma = BehavioralMode.grounded)) with
    | some landPattern => some landPattern
    | none => some e

/-- Step 1 of solveForDrone: the forced-exit target, when the current
pattern exists, one of its forced-exit conditions holds, and the first such
target exists in the catalog. -/
def forcedExitTarget (drone : DroneState) (catalog : BehavioralCatalog) :
    Option String :=
  match lookupPattern catalog drone.currentPattern with
  | none => none
  | some currentPattern =>
    match checkForcedExits drone currentPattern with
    | none => none
    | some forcedTarget =>
      match lookupPattern catalog forcedTarget with
      | none => none
      | some _ => some forcedTarget

/-- Steps 2 to 5 of solveForDrone: filter the catalog by hardware (rho and
tau), then preconditions, then transition validity from the current pattern
(no current pattern accepts all, the same pattern is always a valid stay),
then pairwise compatibility with neighbor assignments. -/
def solveCandidates (drone : DroneState) (world : WorldModel)
    (catalog : BehavioralCatalog)
    (assignedPatterns : List (String × String)) : List BehavioralPattern :=
  ((((filterByCore catalog
    { CoreFilter.none with
      rho := some drone.coordinate.rho,
      tau := some drone.coordinate.tau }).filter
    (fun p => meetsPreconditions p drone)).filter
    (fun p =>
      if drone.currentPattern = "" then true
      else if p.id = drone.currentPattern then true
      else isPatternTransitionValid catalog drone.currentPattern p.id)).filter
    (fun p =>
      isCompatibleWithNeighbors p drone world catalog assignedPatterns))

/-- Step 6 of solveForDrone: score the candidates and sort best first
(the stable sort matches the JS sort by descending score). -/
def solveScored (drone : DroneState) (objectives : List SwarmObjective)
    (candidates : List BehavioralPattern) :
    List (BehavioralPattern × ℚ) :=
  sortBy (fun a b => decide (b.2 ≤ a.2))
    (candidates.map (fun p => (p, scoreCandidate p drone objectives)))

/-- Solve a single drone's pattern assignment (solveForDrone): forced exits
first, then hardware, precondition, transition and compatibility filters,
then scoring, then the hover, emergency and keep-current fallbacks. -/
def solveForDrone (drone : DroneState) (world : WorldModel)
    (catalog : BehavioralCatalog) (objectives : List SwarmObjective)
    (assignedPatterns : List (String × String)) : Assignment :=
  match forcedExitTarget drone catalog with
  | some forcedTarget => { droneId := drone.id, patternId := forcedTarget }
  | none =>
    match solveScored drone objectives
        (solveCandidates drone world catalog assignedPatterns) with
    | best :: _ => { droneId := drone.id, patternId := best.1.id }
    | [] =>
      match findFallbackHover drone catalog with
      | some hoverFallback =>
        { droneId := drone.id, patternId := hoverFallback.id }
      | none =>
        match findEmergencyFallback drone catalog with
        | some emergencyFallback =>
          { droneId := drone.id, patternId := emergencyFallback.id }
        | none =>
          { droneId := drone.id, patternId := drone.currentPattern }

/-- The loop of solveAssignment over the affected set (in its iteration
order), threading the map of assignments made so far. -/
def solveLoop (world : WorldModel) (catalog : BehavioralCatalog)
    (objectives : List SwarmObjective) :
    List String → List (String × String) → List Assignment
  | [], _ => []
  | droneId :: rest, assignedPatterns =>
    match getDrone world droneId with
    | none => solveLoop world catalog objectives rest assignedPatterns
    | some drone =>
      let assignment :=
        solveForDrone drone world catalog objectives assignedPatterns
      assignment ::
        solveLoop world catalog objectives rest
          (alSet assignedPatterns droneId assignment.patternId)

/-- Solve pattern assignments for a set of affected drones
(solveAssignment).  The affected set iterates in insertion order, embedded
as a list; drones missing from the world are skipped. -/
def solveAssignment (world : WorldModel) (catalog : BehavioralCatalog)
    (affectedDrones : List String) (objectives : List SwarmObjective) :
    List Assignment :=
  solveLoop world catalog objectives affectedDrones []

-- =========================================================================
-- Section 9: role assignment (src/coordinator/role-assignment.ts)
-- =========================================================================

/-- Formation specification (FormationSpec). -/
structure FormationSpec where
  minPerformers : ℕ
  needsLeader : Bool
  center : Vec3
deriving DecidableEq, Repr

/-- Coverage specification (CoverageSpec). -/
structure CoverageSpec where
  coverageRadius : ℚ
  needsRelay : Bool
deriving DecidableEq, Repr

/-- Role assignment configuration (RoleAssignmentConfig). -/
structure RoleAssignmentConfig where
  batteryChargeThreshold : ℚ
  batteryReturnThreshold : ℚ
  roleHysteresisTickCount : ℚ
deriving DecidableEq, Repr

/-- The default role configuration (DEFAULT_ROLE_CONFIG). -/
def DEFAULT_ROLE_CONFIG : RoleAssignmentConfig := ⟨mkRat 15 100, mkRat 9 10, 10⟩

/-- Membership in the charging lifecycle role set (CHARGING_ROLES). -/
def chargingRole (r : FormationRole) : Bool :=
  decide (r = FormationRole.charging) ||
  decide (r = FormationRole.chargerInbound) ||
  decide (r = FormationRole.chargerOutbound)

/-- Membership in the grounded sigma set (GROUNDED_SIGMA). -/
def groundedSigma (s : BehavioralMode) : Bool :=
  decide (s = BehavioralMode.grounded) || decide (s = BehavioralMode.docked)

/-- The mutable state of assignRoles: the working effective-role snapshot
and the accumulated change map, both JS Maps embedded as association
lists. -/
structure RoleState where
  eff : List (String × FormationRole)
  changes : List (String × FormationRole)
deriving DecidableEq, Repr

/-- Record a role change (the setRole helper of assignRoles). -/
def setRole (st : RoleState) (id : String) (role : FormationRole) :
    RoleState :=
  ⟨alSet st.eff id role, alSet st.changes id role⟩

/-- Count drones currently holding a role in the effective map (countRole). -/
def countRole (eff : List (String × FormationRole)) (role : FormationRole) :
    ℕ :=
  (eff.filter (fun p => p.2 = role)).length

/-- Decides whether the real square root of a nonnegative rational `a` is at
least the rational `R`. -/
def sqrtGeQ (a R : ℚ) : Bool :=
  decide (R ≤ 0) || decide (R ^ 2 ≤ a)

/-- Decides the strict inequality between the real square root of `a` minus
the real square root of `b` and the rational bound `g` (the two plus-minus
case of the signed-roots comparison, for nonnegative `a`, `b`). -/
def sqrtSubLt (a b g : ℚ) : Bool :=
  if decide (g ≤ 0) && decide (b ≤ g ^ 2) then false
  else
    let k := a - b - g ^ 2
    if 0 ≤ g then decide (k < 0) || decide (k ^ 2 < 4 * g ^ 2 * b)
    else decide (k < 0) && decide (4 * g ^ 2 * b < k ^ 2)

/-- Decides (s √a) + (t √b) < g over the reals, for nonnegative rationals
`a`, `b` and signs given as booleans (true means plus).  Derivations, with
m and k as below:
sum case: √a+√b < g iff g>0 and a+b+2√(ab) < g², i.e. g>0, m>0 and
4ab < m² for m = g²−a−b;
difference cases reduce to sqrtSubLt;
negated-sum case: −√a−√b < g iff not (√a+√b ≤ −g), i.e. not
(g ≤ 0 ∧ m ≥ 0 ∧ 4ab ≤ m²). -/
def sqrtLinLt (sa : Bool) (a : ℚ) (sb : Bool) (b : ℚ) (g : ℚ) : Bool :=
  match sa, sb with
  | true, true =>
    decide (0 < g) &&
      (let m := g ^ 2 - a - b
       decide (0 < m) && decide (4 * a * b < m ^ 2))
  | true, false => sqrtSubLt a b g
  | false, true => sqrtSubLt b a g
  | false, false =>
    !(decide (g ≤ 0) &&
      (let m := g ^ 2 - a - b
       decide (0 ≤ m) && decide (4 * a * b ≤ m ^ 2)))

/-- Decides whether drone d's relay score is strictly below drone e's
(the score comparison inside pickRelayCandidate).  The source score is
abs(sqrt(aX) − R) − 0.01·battX with aX the squared distance from the
origin; the comparison is decided exactly over rationals by resolving the
absolute values with sqrtGeQ and then applying sqrtLinLt. -/
def relayScoreLt (R aD cD aE cE : ℚ) : Bool :=
  let s1 := sqrtGeQ aD R
  let s2 := sqrtGeQ aE R
  let g := (if s1 then R else -R) - (if s2 then R else -R) + cD - cE
  sqrtLinLt s1 aD (!s2) aE g

/-- Eligibility filter shared by pickRelayCandidate and
pickLeaderCandidate: effective role is performer or reserve (a missing
entry fails the test, as the source's role comparison against undefined
does) and battery at or above the charge threshold. -/
def roleEligible (eff : List (String × FormationRole))
    (cfg : RoleAssignmentConfig) (d : DroneState) : Bool :=
  (match alGet eff d.id with
   | some r => decide (r = FormationRole.performer) ||
       decide (r = FormationRole.reserve)
   | none => false) &&
  decide (d.lastTelemetry.battery.percentage ≥
    cfg.batteryChargeThreshold)

/-- One comparison of pickRelayCandidate's best-score loop: keep the new
drone exactly when its score is strictly below the running best's (the
source updates on score < bestScore).  The score abs(dist − R) − 0.01·batt
is compared exactly over rationals by relayScoreLt on squared distances
from the origin. -/
def relayFoldStep (coverage : CoverageSpec) (best : Option DroneState)
    (d : DroneState) : Option DroneState :=
  match best with
  | none => some d
  | some e =>
    if relayScoreLt coverage.coverageRadius
        (vec3DistSq d.lastTelemetry.position ⟨0, 0, 0⟩)
        (d.lastTelemetry.battery.percentage * mkRat 1 100)
        (vec3DistSq e.lastTelemetry.position ⟨0, 0, 0⟩)
        (e.lastTelemetry.battery.percentage * mkRat 1 100)
    then some d else best

/-- Pick the best relay candidate (pickRelayCandidate): among eligible
drones, the one minimizing distance to the coverage boundary with a small
battery tiebreak; the fold keeps the earlier drone on ties, matching the
source's strict less-than update against the running best. -/
def pickRelayCandidate (drones : List DroneState)
    (eff : List (String × FormationRole)) (coverage : CoverageSpec)
    (cfg : RoleAssignmentConfig) : Option DroneState :=
  (drones.filter (roleEligible eff cfg)).foldl (relayFoldStep coverage)
    none

/-- The sort comparator of pickLeaderCandidate: battery descending, with
position quality descending as tiebreak when the battery difference is
within 0.001 (true when a sorts at or before b, matching the source's
comparator made stable). -/
def leaderLe (a b : DroneState) : Bool :=
  if |b.lastTelemetry.battery.percentage -
      a.lastTelemetry.battery.percentage| > mkRat 1 1000
  then decide (b.lastTelemetry.battery.percentage -
      a.lastTelemetry.battery.percentage ≤ 0)
  else decide (b.lastTelemetry.position_quality ≤
    a.lastTelemetry.position_quality)

/-- Pick the best leader candidate (pickLeaderCandidate): eligible drones
sorted by leaderLe, taking the first. -/
def pickLeaderCandidate (drones : List DroneState)
    (eff : List (String × FormationRole)) (cfg : RoleAssignmentConfig) :
    Option DroneState :=
  (sortBy leaderLe (drones.filter (roleEligible eff cfg))).head?

/-- One iteration of rule 1 of assignRoles for one drone. -/
def roleRule1Step (cfg : RoleAssignmentConfig) (st : RoleState)
    (d : DroneState) : RoleState :=
  match alGet st.eff d.id with
  | none => st
  | some currentRole =>
    if d.lastTelemetry.battery.percentage <
        cfg.batteryChargeThreshold ∧ ¬(chargingRole currentRole = true)
    then setRole st d.id FormationRole.chargerInbound
    else st

/-- Rule 1 of assignRoles: safety, low battery forces charger-inbound
unless the drone is already in the charging lifecycle. -/
def roleRule1 (cfg : RoleAssignmentConfig) (drones : List DroneState)
    (st : RoleState) : RoleState :=
  drones.foldl (roleRule1Step cfg) st

/-- One iteration of rule 2 of assignRoles for one drone. -/
def roleRule2Step (cfg : RoleAssignmentConfig) (st : RoleState)
    (d : DroneState) : RoleState :=
  match alGet st.eff d.id with
  | none => st
  | some currentRole =>
    if currentRole = FormationRole.charging ∧
        d.lastTelemetry.battery.percentage ≥ cfg.batteryReturnThreshold
    then setRole st d.id FormationRole.chargerOutbound
    else st

/-- Rule 2 of assignRoles: charging complete, battery at or above the
return threshold moves charging to charger-outbound. -/
def roleRule2 (cfg : RoleAssignmentConfig) (drones : List DroneState)
    (st : RoleState) : RoleState :=
  drones.foldl (roleRule2Step cfg) st

/-- One iteration of rule 3 of assignRoles for one drone; the performer
count is read from the effective map as it stands at that iteration. -/
def roleRule3Step (formation : FormationSpec) (st : RoleState)
    (d : DroneState) : RoleState :=
  match alGet st.eff d.id with
  | none => st
  | some currentRole =>
    if currentRole = FormationRole.chargerOutbound ∧
        ¬(groundedSigma d.coordinate.sigma = true) then
      if countRole st.eff FormationRole.performer <
          formation.minPerformers
      then setRole st d.id FormationRole.performer
      else setRole st d.id FormationRole.reserve
    else st

/-- Rule 3 of assignRoles: an airborne charger-outbound becomes performer
when performers are short, else reserve. -/
def roleRule3 (formation : FormationSpec) (drones : List DroneState)
    (st : RoleState) : RoleState :=
  drones.foldl (roleRule3Step formation) st

/-- Rule 4 of assignRoles: when coverage needs a relay and none exists,
assign the best relay candidate. -/
def roleRule4 (coverage : CoverageSpec) (cfg : RoleAssignmentConfig)
    (drones : List DroneState) (st : RoleState) : RoleState :=
  if coverage.needsRelay then
    if countRole st.eff FormationRole.relay > 0 then st
    else
      match pickRelayCandidate drones st.eff coverage cfg with
      | some candidate => setRole st candidate.id FormationRole.relay
      | none => st
  else st

/-- Rule 5 of assignRoles: when the formation needs a leader and none
exists, assign the best leader candidate. -/
def roleRule5 (formation : FormationSpec) (cfg : RoleAssignmentConfig)
    (drones : List DroneState) (st : RoleState) : RoleState :=
  if formation.needsLeader then
    if countRole st.eff FormationRole.leader > 0 then st
    else
      match pickLeaderCandidate drones st.eff cfg with
      | some candidate => setRole st candidate.id FormationRole.leader
      | none => st
  else st

/-- Rule 6 of assignRoles: promote reserves (by descending battery) until
the performer count reaches the formation minimum; the count, the reserve
list and the needed number are all computed from the effective map as it
stands on entry to the rule, as in the source. -/
def roleRule6 (formation : FormationSpec) (drones : List DroneState)
    (st : RoleState) : RoleState :=
  if countRole st.eff FormationRole.performer < formation.minPerformers
  then
    ((sortBy (fun a b => decide (b.lastTelemetry.battery.percentage ≤
        a.lastTelemetry.battery.percentage))
      (drones.filter (fun d =>
        alGet st.eff d.id = some FormationRole.reserve))).take
      (formation.minPerformers -
        countRole st.eff FormationRole.performer)).foldl
      (fun st d => setRole st d.id FormationRole.performer) st
  else st

/-- The current performers sorted by ascending battery (the
currentPerformers list of rule 7), computed from a fixed effective map. -/
def performersSorted (drones : List DroneState)
    (eff : List (String × FormationRole)) : List DroneState :=
  sortBy (fun a b => decide (a.lastTelemetry.battery.percentage ≤
      b.lastTelemetry.battery.percentage))
    (drones.filter (fun d =>
      alGet eff d.id = some FormationRole.performer))

/-- Rule 7 of assignRoles: demote excess performers (by ascending
battery), but only those below fifty percent battery; the performer list
and the excess are computed from the effective map on entry. -/
def roleRule7 (formation : FormationSpec) (drones : List DroneState)
    (st : RoleState) : RoleState :=
  if (performersSorted drones st.eff).length > formation.minPerformers
  then
    ((performersSorted drones st.eff).take
      ((performersSorted drones st.eff).length -
        formation.minPerformers)).foldl
      (fun st d =>
        if d.lastTelemetry.battery.percentage < mkRat 1 2
        then setRole st d.id FormationRole.reserve
        else st)
      st
  else st

/-- Rule 8 of assignRoles: hysteresis.  When a tick-count map is supplied,
drop every proposed change except charger-inbound whose drone's tick count
(defaulting to infinity when absent, which never suppresses) is below the
hysteresis count.  The source collects the suppressed ids and then deletes
them; this is the equivalent single filter over the change map. -/
def roleRule8 (cfg : RoleAssignmentConfig)
    (roleTickCounts : Option (String → Option ℚ)) (st : RoleState) :
    RoleState :=
  match roleTickCounts with
  | none => st
  | some tickOf =>
    { st with
      changes := st.changes.filter (fun p =>
        decide (p.2 = FormationRole.chargerInbound) ||
        (match tickOf p.1 with
         | some ticks => !(decide (ticks < cfg.roleHysteresisTickCount))
         | none => true)) }

/-- Final cleanup of assignRoles: remove no-op changes whose new role
equals the drone's stored chi.  The source deletes entries while iterating
the change map; this is the equivalent filter. -/
def roleCleanup (world : WorldModel)
    (changes : List (String × FormationRole)) :
    List (String × FormationRole) :=
  changes.filter (fun p =>
    match getDrone world p.1 with
    | some drone => decide (drone.coordinate.chi ≠ p.2)
    | none => true)

/-- The active drone records assignRoles operates on, in map order. -/
def activeDrones (world : WorldModel) : List DroneState :=
  (getActiveDroneIds world).filterMap (fun id => getDrone world id)

/-- The working effective-role snapshot, initialized from each drone's
current chi. -/
def initialEff (drones : List DroneState) :
    List (String × FormationRole) :=
  drones.foldl (fun m d => alSet m d.id d.coordinate.chi) []

/-- The eight priority rules of assignRoles applied in order to the
initial state. -/
def rolePipeline (formation : FormationSpec) (coverage : CoverageSpec)
    (cfg : RoleAssignmentConfig)
    (roleTickCounts : Option (String → Option ℚ))
    (drones : List DroneState) : RoleState :=
  roleRule8 cfg roleTickCounts
    (roleRule7 formation drones
      (roleRule6 formation drones
        (roleRule5 formation cfg drones
          (roleRule4 coverage cfg drones
            (roleRule3 formation drones
              (roleRule2 cfg drones
                (roleRule1 cfg drones ⟨initialEff drones, []⟩)))))))

/-- Assign roles to all active drones (assignRoles): a working
effective-role snapshot initialized from current chi values, the eight
priority rules in order, and the cleanup; the result is the change map
(droneId to new role, insertion-ordered). -/
def assignRoles (world : WorldModel) (formation : FormationSpec)
    (coverage : CoverageSpec) (cfg : RoleAssignmentConfig)
    (roleTickCounts : Option (String → Option ℚ)) :
    List (String × FormationRole) :=
  roleCleanup world
    (rolePipeline formation coverage cfg roleTickCounts
      (activeDrones world)).changes

/-- The invariant tracked through the role rules for claim C2: the drone is
mapped to charger-inbound in both the effective map and the change map. -/
def RoleInv (did : String) (st : RoleState) : Prop :=
  alGet st.eff did = some FormationRole.chargerInbound ∧
  alGet st.changes did = some FormationRole.chargerInbound

-- =========================================================================
-- Section 10: concrete instances used by witnesses and counterexamples
-- =========================================================================

/-- A core pattern used by the concrete instances below. -/
def demoCore : CorePattern :=
  ⟨.hover, .autonomous, .performer, .sharedCorridor, .bare, .crazyflie21⟩

/-- A pattern that does not list itself in valid_to or valid_from. -/
def c3PatternNoSelf : BehavioralPattern :=
  { id := "p", core := demoCore,
    preconditions := ⟨0, 0, 0, []⟩, postconditions := ⟨[], []⟩ }

/-- A one-pattern catalog whose pattern does not list itself. -/
def c3CatalogNoSelf : BehavioralCatalog := ⟨[("p", c3PatternNoSelf)], []⟩

/-- A hover pattern with a valid transition to the land pattern below. -/
def c3PatternA : BehavioralPattern :=
  { id := "a", core := demoCore,
    preconditions := ⟨0, 0, 0, []⟩, postconditions := ⟨["b"], []⟩ }

/-- A land pattern accepting the hover pattern above. -/
def c3PatternB : BehavioralPattern :=
  { id := "b", core := { demoCore with sigma := .land },
    preconditions := ⟨0, 0, 0, ["a"]⟩, postconditions := ⟨[], []⟩ }

/-- A two-pattern catalog with one valid transition. -/
def c3CatalogAB : BehavioralCatalog :=
  ⟨[("a", c3PatternA), ("b", c3PatternB)], []⟩

/-- The accumulator update of findBestRule restricted to the rules that
match: used to characterize which rule wins. -/
def foldBestRule (l : List CompatibilityRule)
    (acc : Option CompatibilityRule) : Option CompatibilityRule :=
  l.foldl
    (fun best rule =>
      match best with
      | none => some rule
      | some br =>
        if ruleSpecificity rule > ruleSpecificity br then some rule
        else best)
    acc

/-- The rule r is the first maximally specific element of the list l:
everything before it is strictly less specific and everything after it is
at most as specific. -/
def IsFirstMaxRule (l : List CompatibilityRule) (r : CompatibilityRule) :
    Prop :=
  ∃ l1 l2, l = l1 ++ r :: l2 ∧
    (∀ x ∈ l1, ruleSpecificity x < ruleSpecificity r) ∧
    (∀ x ∈ l2, ruleSpecificity x ≤ ruleSpecificity r)

/-- The three compatibility rules of the specificity scenario: a universal
pair, a wildcard pair, and an exact pair. -/
def c4Catalog : BehavioralCatalog :=
  ⟨[],
   [⟨"*", "*", true, mkRat 1 2⟩,
    ⟨"hover-*", "hover-*", true, mkRat 3 10⟩,
    ⟨"hover-auto-performer", "translate-auto-performer", true, mkRat 4 10⟩]⟩

/-- The exact rule of c4Catalog, the most specific match for its pair. -/
def c4ExactRule : CompatibilityRule :=
  ⟨"hover-auto-performer", "translate-auto-performer", true, mkRat 4 10⟩

/-- Telemetry fixture: a position, battery percentage and position quality. -/
def testTelemetry (pos : Vec3) (batt : ℚ) (pq : ℚ) : SensorState :=
  ⟨pos, ⟨batt⟩, pq⟩

/-- Drone-state fixture with an empty stored neighbor graph. -/
def testDrone (id : String) (sigma : BehavioralMode) (chi : FormationRole)
    (pos : Vec3) (batt : ℚ) (currentPattern : String) : DroneState :=
  { id := id,
    coordinate :=
      { sigma := sigma, kappa := .autonomous, chi := chi,
        lambda := .sharedCorridor, tau := .bare, rho := .crazyflie21,
        epsilon := ⟨[], none, [], none, none, none, []⟩,
        delta := testTelemetry pos batt 1, sigma_upper := "" },
    currentPattern := currentPattern,
    lastTelemetry := testTelemetry pos batt 1,
    lastUpdate := 0, stale := false }

/-- World with a follower and two in-range leaders, l1 inserted before l2. -/
def c9World : WorldModel :=
  ⟨⟨5, 500⟩,
   [("l1", testDrone "l1" .hover .leader ⟨1, 0, 0⟩ (mkRat 8 10) "p"),
    ("l2", testDrone "l2" .hover .leader ⟨2, 0, 0⟩ (mkRat 8 10) "p"),
    ("f", testDrone "f" .hover .follower ⟨0, 0, 0⟩ (mkRat 8 10) "p")]⟩

/-- Reachable world: one drone registered at the origin. -/
def c8WorldA : WorldModel :=
  addDrone ⟨DEFAULT_CONFIG, []⟩ "d0" .crazyflie21 .bare "idle"
    (testTelemetry ⟨0, 0, 0⟩ (mkRat 8 10) 1) 0

/-- Reachable world: a second drone registered one meter away.  Its stored
neighbor graph sees d0, but d0's stored graph (computed when d0 was alone)
does not see it back. -/
def c8WorldB : WorldModel :=
  addDrone c8WorldA "d1" .crazyflie21 .bare "idle"
    (testTelemetry ⟨1, 0, 0⟩ (mkRat 8 10) 1) 0

/-- Reachable world: both drones marked stale after 1000 ms of silence. -/
def c8WorldStale : WorldModel := (markStaleDrones c8WorldB 1000).1

/-- World with a single drone used by the updatePattern witness. -/
def c10World : WorldModel :=
  ⟨⟨5, 500⟩,
   [("d0", testDrone "d0" .hover .performer ⟨0, 0, 0⟩ (mkRat 8 10) "p")]⟩

/-- The world map is well keyed: every record's id field equals its map
key.  This is how the world model builds its map (addDrone keys by the
state's id). -/
def WellKeyedWorld (world : WorldModel) : Prop :=
  ∀ p ∈ world.drones, p.2.id = p.1

/-- The catalog map is well keyed: every pattern's id field equals its map
key.  This is how loadCatalog builds the map (patterns.set(pattern.id,
pattern)). -/
def WellKeyedCatalog (catalog : BehavioralCatalog) : Prop :=
  ∀ p ∈ catalog.patterns, p.2.id = p.1

/-- A hover pattern whose forced exit at battery below 0.10 targets the
emergency-land pattern. -/
def c15Hover : BehavioralPattern :=
  { id := "hov", core := demoCore,
    preconditions := ⟨mkRat 2 10, mkRat 1 2, 0, []⟩,
    postconditions := ⟨["hov"], [⟨"battery < 0.10", "eland"⟩]⟩ }

/-- The emergency-land pattern targeted by the forced exit. -/
def c15Land : BehavioralPattern :=
  { id := "eland", core := { demoCore with sigma := .land },
    preconditions := ⟨0, 0, 0, ["hov"]⟩,
    postconditions := ⟨[], []⟩ }

/-- Catalog with the hover pattern and its forced-exit target. -/
def c15Catalog : BehavioralCatalog :=
  ⟨[("hov", c15Hover), ("eland", c15Land)], []⟩

/-- The critically low-battery drone executing the hover pattern. -/
def c15Drone : DroneState :=
  testDrone "d0" .hover .performer ⟨0, 0, 0⟩ (mkRat 1 20) "hov"

/-- World with the critically low-battery drone. -/
def c15World : WorldModel := ⟨⟨5, 500⟩, [("d0", c15Drone)]⟩

/-- A low-battery performer drone for exercising the role safety rule. -/
def c2Drone : DroneState :=
  testDrone "c2d" .hover .performer ⟨0, 0, 0⟩ (mkRat 1 20) "p"

/-- A one-drone world for exercising the role safety rule. -/
def c2World : WorldModel := ⟨⟨5, 500⟩, [("c2d", c2Drone)]⟩

/-- A formation spec needing neither extra performers nor a leader. -/
def c2Formation : FormationSpec := ⟨0, false, ⟨0, 0, 0⟩⟩

/-- A coverage spec needing no relay. -/
def c2Coverage : CoverageSpec := ⟨100, false⟩

/-- A tick-count map reporting every role as fresh (0 ticks, below the
hysteresis count), so rule 8 suppresses every non-safety change. -/
def c2Ticks : Option (String → Option ℚ) := some (fun _ => some 0)

theorem find?_map_setEntry {α : Type} (k k' : String) (v : α)
    (hne : k' ≠ k) (m : List (String × α)) :
    (m.map (fun p => if p.1 = k then (k, v) else p)).find?
        (fun p => p.1 = k') =
      m.find? (fun p => p.1 = k') := by
  induction m with
  | nil => rfl
  | cons hd tl ih =>
    by_cases hk : hd.1 = k
    · have h1 : ¬ ((k, v).1 = k') := fun h => hne h.symm
      have h2 : ¬ (hd.1 = k') := by rw [hk]; exact fun h => hne h.symm
      simp only [List.map_cons, if_pos hk, List.find?_cons]
      simp only [h1, h2, decide_False]
      exact ih
    · simp only [List.map_cons, if_neg hk, List.find?_cons]
      by_cases h2 : hd.1 = k'
      · simp [h2]
      · simp only [h2, decide_False]
        exact ih

theorem alGet_alSet_same {α : Type} (m : List (String × α)) (k : String)
    (v : α) : alGet (alSet m k v) k = some v := by
  unfold alGet alSet
  by_cases h : m.any (fun p => p.1 = k)
  · rw [if_pos h]
    suffices hfind :
        (m.map (fun p => if p.1 = k then (k, v) else p)).find?
          (fun p => decide (p.1 = k)) = some (k, v) by
      simp [hfind]
    induction m with
    | nil => simp at h
    | cons hd tl ih =>
      by_cases hk : hd.1 = k
      · simp [List.find?_cons, if_pos hk]
      · simp only [List.any_cons, Bool.or_eq_true, decide_eq_true_eq] at h
        rcases h with h | h
        · exact absurd h hk
        · simp only [List.map_cons, if_neg hk, List.find?_cons]
          simp only [hk, decide_False]
          exact ih h
  · rw [if_neg h]
    have hnone : m.find? (fun p => decide (p.1 = k)) = none := by
      rw [List.find?_eq_none]
      intro x hx
      simp only [List.any_eq_true, decide_eq_true_eq] at h
      push_neg at h
      simp [h x hx]
    simp [List.find?_append, hnone]

theorem alGet_alSet_ne {α : Type} (m : List (String × α)) (k k' : String)
    (v : α) (hne : k' ≠ k) : alGet (alSet m k v) k' = alGet m k' := by
  unfold alGet alSet
  by_cases h : m.any (fun p => p.1 = k)
  · rw [if_pos h]
    rw [find?_map_setEntry k k' v hne m]
  · rw [if_neg h]
    rw [List.find?_append]
    have h1 : ([(k, v)]).find? (fun p => decide (p.1 = k')) = none := by
      have : ¬ k = k' := fun hh => hne hh.symm
      simp [this]
    cases hm : m.find? (fun p => decide (p.1 = k')) <;> simp [h1, hm]

-- =========================================================================
-- Claim C3: transition validity
-- =========================================================================

/-- Claim C3, counterexample to the claim as stated: the claim asserts
is_transition_valid(p, p) is true for every pattern id p even when p does
not list itself in valid_to or valid_from, but the pattern-level check has
no self-transition special case: on a catalog whose single pattern p lists
no transitions at all, the self transition is rejected. -/
theorem C3_self_transition_counterexample :
    isPatternTransitionValid c3CatalogNoSelf "p" "p" = false := by
  decide

/-- Claim C3 (amended): self-transitions are valid at the sigma level
(isTransitionValid of equal modes is true), but the pattern-level
is_transition_valid applies the same three conditions to p to p as to any
pair: for all ids, it returns true iff both patterns exist in the catalog,
the target id is in the source's valid_to, the source id is in the
target's valid_from, and the sigma-to-sigma rule lookup in the transition
matrix yields a valid rule; it returns false when either pattern is
missing. -/
theorem C3_transition_validity :
    (∀ s : BehavioralMode, isTransitionValid s s = true) ∧
    (∀ (catalog : BehavioralCatalog) (fromId toId : String),
      isPatternTransitionValid catalog fromId toId = true ↔
        ∃ fp tp, lookupPattern catalog fromId = some fp ∧
          lookupPattern catalog toId = some tp ∧
          toId ∈ fp.postconditions.valid_to ∧
          fromId ∈ tp.preconditions.valid_from ∧
          ∃ r, findTransitionRule fp.core.sigma tp.core.sigma = some r ∧
            r.valid = true) := by
  constructor
  · intro s
    simp [isTransitionValid]
  · intro catalog fromId toId
    unfold isPatternTransitionValid
    cases hf : lookupPattern catalog fromId with
    | none => simp [hf]
    | some fp =>
      cases ht : lookupPattern catalog toId with
      | none => simp [ht]
      | some tp =>
        by_cases h1 : toId ∈ fp.postconditions.valid_to
        · by_cases h2 : fromId ∈ tp.preconditions.valid_from
          · cases hr : findTransitionRule fp.core.sigma tp.core.sigma with
            | none =>
              simp [List.elem_iff.mpr h1, List.elem_iff.mpr h2, h1, h2, hr,
                List.contains]
            | some r =>
              simp [List.elem_iff.mpr h1, List.elem_iff.mpr h2, h1, h2, hr,
                List.contains]
          · have h2' : tp.preconditions.valid_from.contains fromId = false := by
              rw [Bool.eq_false_iff]
              intro hc
              exact h2 (List.elem_iff.mp hc)
            simp [h2', h2, List.contains]
        · have h1' : fp.postconditions.valid_to.contains toId = false := by
            rw [Bool.eq_false_iff]
            intro hc
            exact h1 (List.elem_iff.mp hc)
          simp [h1', h1, List.contains]

/-- Witness for C3: the characterization evaluated on the concrete
two-pattern catalog (a valid hover-to-land transition) and a concrete
sigma self-transition. -/
theorem C3_transition_validity_witness :
    isTransitionValid BehavioralMode.hover BehavioralMode.hover = true ∧
    isPatternTransitionValid c3CatalogAB "a" "b" = true :=
  ⟨C3_transition_validity.1 BehavioralMode.hover,
    (C3_transition_validity.2 c3CatalogAB "a" "b").mpr
      ⟨c3PatternA, c3PatternB, by decide, by decide, by decide, by decide,
        ⟨⟨ModePat.mode BehavioralMode.hover, ModePat.mode BehavioralMode.land,
          true, mkRat 1 2⟩, by decide, rfl⟩⟩⟩

-- =========================================================================
-- Claim C4: compatibility rule resolution
-- =========================================================================

theorem findBestRule_eq_foldBest (rules : List CompatibilityRule)
    (idA idB : String) (acc : Option CompatibilityRule) :
    rules.foldl
      (fun best rule =>
        if matchesRule rule idA idB then
          match best with
          | none => some rule
          | some br =>
            if ruleSpecificity rule > ruleSpecificity br then some rule
            else best
        else best)
      acc =
      foldBestRule (rules.filter (fun r => matchesRule r idA idB)) acc := by
  induction rules generalizing acc with
  | nil => rfl
  | cons hd tl ih =>
    by_cases h : matchesRule hd idA idB
    · simp only [List.foldl_cons, List.filter_cons, h, if_pos, if_true]
      rw [ih]
      rfl
    · have h' : matchesRule hd idA idB = false := by
        rw [Bool.eq_false_iff]; exact h
      simp only [List.foldl_cons, List.filter_cons, h', if_neg h]
      rw [ih]
      simp

theorem findBestRule_as_filter (rules : List CompatibilityRule)
    (idA idB : String) :
    findBestRule rules idA idB =
      foldBestRule (rules.filter (fun r => matchesRule r idA idB)) none := by
  unfold findBestRule
  rw [← findBestRule_eq_foldBest]

theorem foldBest_all_le (l : List CompatibilityRule)
    (r : CompatibilityRule)
    (h : ∀ x ∈ l, ruleSpecificity x ≤ ruleSpecificity r) :
    foldBestRule l (some r) = some r := by
  induction l with
  | nil => rfl
  | cons hd tl ih =>
    unfold foldBestRule
    simp only [List.foldl_cons]
    have hle : ruleSpecificity hd ≤ ruleSpecificity r :=
      h hd (List.mem_cons_self hd tl)
    have : ¬ (ruleSpecificity hd > ruleSpecificity r) := not_lt.mpr hle
    simp only [this, if_false, gt_iff_lt, if_neg (not_lt.mpr hle)]
    exact ih (fun x hx => h x (List.mem_cons_of_mem hd hx))

theorem foldBest_all_lt (l : List CompatibilityRule)
    (y : CompatibilityRule) (c : ℕ)
    (hy : ruleSpecificity y < c)
    (h : ∀ x ∈ l, ruleSpecificity x < c) :
    ∃ z, foldBestRule l (some y) = some z ∧ ruleSpecificity z < c := by
  induction l generalizing y with
  | nil => exact ⟨y, rfl, hy⟩
  | cons hd tl ih =>
    unfold foldBestRule
    simp only [List.foldl_cons]
    have hhd : ruleSpecificity hd < c := h hd (List.mem_cons_self hd tl)
    have htl : ∀ x ∈ tl, ruleSpecificity x < c :=
      fun x hx => h x (List.mem_cons_of_mem hd hx)
    by_cases hcmp : ruleSpecificity hd > ruleSpecificity y
    · simp only [hcmp, if_true]
      exact ih hd hhd htl
    · simp only [hcmp, if_false]
      exact ih y hy htl

theorem foldBest_firstMax (l : List CompatibilityRule)
    (r : CompatibilityRule) (h : IsFirstMaxRule l r) :
    foldBestRule l none = some r := by
  obtain ⟨l1, l2, rfl, hlt, hle⟩ := h
  have happ : foldBestRule (l1 ++ r :: l2) none =
      foldBestRule (r :: l2) (foldBestRule l1 none) := by
    unfold foldBestRule
    rw [List.foldl_append]
  rw [happ]
  cases hl1 : l1 with
  | nil =>
    subst hl1
    have : foldBestRule ([] : List CompatibilityRule) none = none := rfl
    rw [this]
    have hstep : foldBestRule (r :: l2) none = foldBestRule l2 (some r) := rfl
    rw [hstep]
    exact foldBest_all_le l2 r hle
  | cons x xs =>
    subst hl1
    have hx : ruleSpecificity x < ruleSpecificity r :=
      hlt x (List.mem_cons_self x xs)
    have hxs : ∀ z ∈ xs, ruleSpecificity z < ruleSpecificity r :=
      fun z hz => hlt z (List.mem_cons_of_mem x hz)
    have hfirst : foldBestRule (x :: xs) none = foldBestRule xs (some x) := rfl
    rw [hfirst]
    obtain ⟨z, hz, hzlt⟩ := foldBest_all_lt xs x (ruleSpecificity r) hx hxs
    rw [hz]
    have hstep : foldBestRule (r :: l2) (some z) =
        foldBestRule l2 (if ruleSpecificity r > ruleSpecificity z
          then some r else some z) := rfl
    rw [hstep, if_pos hzlt]
    exact foldBest_all_le l2 r hle

/-- Claim C4: is_compatible resolves by glob match and specificity.  If no
compatibility rule's globs match the pair in either orientation the result
is true (open world); otherwise the first rule attaining the maximal
specificity score (2 per side for an exact glob, 1 for a glob containing a
star, 0 for the universal star — the embedded ruleSpecificity) decides:
false when marked incompatible, else true iff the separation is at least
its minimum. -/
theorem C4_compatibility_resolution (catalog : BehavioralCatalog)
    (idA idB : String) (sep : ℚ) :
    ((catalog.compatibility.filter (fun r => matchesRule r idA idB)) = [] →
      isCompatible catalog idA idB sep = true) ∧
    (∀ r, IsFirstMaxRule
        (catalog.compatibility.filter (fun r => matchesRule r idA idB)) r →
      isCompatible catalog idA idB sep =
        (r.compatible && decide (r.min_separation_m ≤ sep))) := by
  constructor
  · intro hempty
    unfold isCompatible
    rw [findBestRule_as_filter, hempty]
    rfl
  · intro r hr
    unfold isCompatible
    rw [findBestRule_as_filter, foldBest_firstMax _ r hr]
    cases hc : r.compatible with
    | false => simp [hc]
    | true => simp [hc]

/-- Witness for C4: on the three-rule catalog of the specificity scenario,
the exact rule is the first maximal match for its pair and decides the
result; on a catalog with no rules the pair is compatible. -/
theorem C4_compatibility_resolution_witness :
    isCompatible c4Catalog "hover-auto-performer" "translate-auto-performer"
        (mkRat 4 10) =
      (c4ExactRule.compatible &&
        decide (c4ExactRule.min_separation_m ≤ mkRat 4 10)) ∧
    isCompatible ⟨[], []⟩ "a" "b" 0 = true :=
  ⟨(C4_compatibility_resolution c4Catalog "hover-auto-performer"
      "translate-auto-performer" (mkRat 4 10)).2 c4ExactRule
      ⟨[⟨"*", "*", true, mkRat 1 2⟩],
       [], by decide, by decide, by decide⟩,
   (C4_compatibility_resolution ⟨[], []⟩ "a" "b" 0).1 rfl⟩

-- =========================================================================
-- Claim C10: updatePattern is frame-preserving
-- =========================================================================

theorem alGet_map_keyed {α : Type} (m : List (String × α)) (k j : String)
    (g : α → α) :
    alGet (m.map (fun p => if p.1 = k then (p.1, g p.2) else p)) j =
      (if j = k then (alGet m j).map g else alGet m j) := by
  induction m with
  | nil =>
    unfold alGet
    by_cases hj : j = k <;> simp [hj]
  | cons hd tl ih =>
    unfold alGet at ih ⊢
    by_cases hk : hd.1 = k
    · by_cases hj : j = k
      · subst hj
        simp [List.find?_cons, hk]
      · have h1 : ¬ (hd.1 = j) := by rw [hk]; exact fun h => hj h.symm
        simp only [List.map_cons, if_pos hk, List.find?_cons, h1,
          decide_False, if_neg hj] at ih ⊢
        rw [ih]
    · by_cases hj : hd.1 = j
      · have hjk : ¬ (j = k) := by
          intro h
          exact hk (hj.symm ▸ h ▸ rfl)
        simp [List.find?_cons, hk, hj, hjk]
      · simp only [List.map_cons, if_neg hk, List.find?_cons, hj,
          decide_False] at ih ⊢
        rw [ih]

theorem detectDelta_changed_subset (c : CorePattern) (s : BehavioralMode)
    (k : AutonomyLevel) (ch : FormationRole) (l : ResourceOwnership) :
    (detectDelta c ⟨s, k, ch, l, c.tau, c.rho⟩).changedDimensions ⊆
      ["sigma", "kappa", "chi", "lambda"] := by
  intro x hx
  unfold detectDelta at hx
  simp only [ne_eq, not_true_eq_false, if_false, List.append_nil,
    List.mem_append] at hx
  split_ifs at hx <;> simp_all <;> tauto

/-- Claim C10: updatePattern is frame-preserving and atomic on error.  When
the drone is unknown, the world and the no-change result are returned
unchanged.  Otherwise only the addressed drone's record changes, and in it
only currentPattern, sigma, kappa, chi and lambda (the record update shown
leaves tau, rho, epsilon, delta, lastTelemetry, lastUpdate and stale
untouched); every other drone's record is unchanged, and the returned
changedDimensions is a subset of sigma, kappa, chi, lambda. -/
theorem C10_updatePattern_frame (world : WorldModel)
    (droneId patternId : String) (sigma : BehavioralMode)
    (kappa : AutonomyLevel) (chi : FormationRole)
    (lambda : ResourceOwnership) :
    (getDrone world droneId = none →
      updatePattern world droneId patternId sigma kappa chi lambda =
        (world, NO_CHANGE)) ∧
    (∀ d, getDrone world droneId = some d →
      (∀ j, j ≠ droneId →
        getDrone
          (updatePattern world droneId patternId sigma kappa chi lambda).1
          j = getDrone world j) ∧
      getDrone
        (updatePattern world droneId patternId sigma kappa chi lambda).1
        droneId = some (applyPatternFields d patternId sigma kappa chi
          lambda) ∧
      (updatePattern world droneId patternId sigma kappa chi
        lambda).2.changedDimensions ⊆
          ["sigma", "kappa", "chi", "lambda"]) := by
  constructor
  · intro h
    unfold updatePattern
    rw [h]
  · intro d hd
    unfold updatePattern
    rw [hd]
    refine ⟨?_, ?_, ?_⟩
    · intro j hj
      show alGet (world.drones.map (fun p =>
        if p.1 = droneId then
          (p.1, applyPatternFields p.2 patternId sigma kappa chi lambda)
        else p)) j = getDrone world j
      rw [alGet_map_keyed world.drones droneId j
        (fun v => applyPatternFields v patternId sigma kappa chi lambda)]
      rw [if_neg hj]
      rfl
    · show alGet (world.drones.map (fun p =>
        if p.1 = droneId then
          (p.1, applyPatternFields p.2 patternId sigma kappa chi lambda)
        else p)) droneId = _
      rw [alGet_map_keyed world.drones droneId droneId
        (fun v => applyPatternFields v patternId sigma kappa chi lambda)]
      rw [if_pos rfl]
      have : alGet world.drones droneId = some d := hd
      rw [this]
      rfl
    · show (detectDelta (extractCore d.coordinate)
        (extractCore (applyPatternFields d patternId sigma kappa chi
          lambda).coordinate)).changedDimensions ⊆ _
      have hcore : extractCore (applyPatternFields d patternId sigma kappa
          chi lambda).coordinate =
          ⟨sigma, kappa, chi, lambda, (extractCore d.coordinate).tau,
            (extractCore d.coordinate).rho⟩ := rfl
      rw [hcore]
      exact detectDelta_changed_subset (extractCore d.coordinate) sigma
        kappa chi lambda

/-- Witness for C10: both branches evaluated on a concrete single-drone
world: updating an unknown id returns the world and NO_CHANGE unchanged;
updating the known drone changes only the addressed fields and reports a
changed-dimension list inside the structural four. -/
theorem C10_updatePattern_frame_witness :
    updatePattern c10World "zz" "q" .land .emergency .reserve .yielding =
      (c10World, NO_CHANGE) ∧
    getDrone (updatePattern c10World "d0" "q" .land .emergency .reserve
        .yielding).1 "d0" =
      some (applyPatternFields
        (testDrone "d0" .hover .performer ⟨0, 0, 0⟩ (mkRat 8 10) "p")
        "q" .land .emergency .reserve .yielding) :=
  ⟨(C10_updatePattern_frame c10World "zz" "q" .land .emergency .reserve
      .yielding).1 (by decide),
   ((C10_updatePattern_frame c10World "d0" "q" .land .emergency .reserve
      .yielding).2
      (testDrone "d0" .hover .performer ⟨0, 0, 0⟩ (mkRat 8 10) "p")
      (by decide)).2.1⟩

-- =========================================================================
-- Claims C8 and C9: neighbor graph computation
-- =========================================================================

theorem neighborStep_neighbors (world : WorldModel) (droneId : String)
    (p : Vec3) (acc : NeighborAcc) (e : String × DroneState) :
    (neighborStep world droneId p acc e).neighbors =
      (if decide (e.1 ≠ droneId) &&
          distLe p e.2.lastTelemetry.position world.config.commRange
        then acc.neighbors ++ [e.1] else acc.neighbors) := by
  unfold neighborStep
  by_cases h1 : e.1 = droneId
  · simp [h1]
  · by_cases h2 : distLe p e.2.lastTelemetry.position world.config.commRange
      = true
    · cases hg : getDrone world droneId with
      | none => simp [h1, h2, hg]
      | some m => simp [h1, h2, hg, apply_ite NeighborAcc.neighbors]
    · simp [h1, h2]

theorem neighborFold_neighbors (world : WorldModel) (droneId : String)
    (p : Vec3) (entries : List (String × DroneState)) (acc : NeighborAcc) :
    (entries.foldl (neighborStep world droneId p) acc).neighbors =
      acc.neighbors ++
        ((entries.filter (fun e => decide (e.1 ≠ droneId) &&
          distLe p e.2.lastTelemetry.position world.config.commRange)).map
            (fun e => e.1)) := by
  induction entries generalizing acc with
  | nil => simp
  | cons e rest ih =>
    rw [List.foldl_cons, ih]
    by_cases hq : (decide (e.1 ≠ droneId) &&
        distLe p e.2.lastTelemetry.position world.config.commRange) = true
    · rw [List.filter_cons, if_pos hq, neighborStep_neighbors, if_pos hq]
      simp
    · rw [List.filter_cons, if_neg hq, neighborStep_neighbors, if_neg hq]

/-- Claim C8, counterexample to the claim as stated: neighbor edges are
neither symmetric nor stale-filtered in reachable states.  After
registering d0 and then d1 one meter apart (commRange 5), d1's stored graph
contains d0 but d0's stored graph does not contain d1, although they are in
range and neither is stale; and after both drones go stale, d1's stored
graph still contains d0. -/
theorem C8_neighbor_symmetry_counterexample :
    ((getNeighborGraph c8WorldB "d1").map
      (fun g => g.neighbors.contains "d0")) = some true ∧
    ((getNeighborGraph c8WorldB "d0").map
      (fun g => g.neighbors.contains "d1")) = some false ∧
    ((getDrone c8WorldB "d0").map (fun d => d.stale)) = some false ∧
    ((getDrone c8WorldB "d1").map (fun d => d.stale)) = some false ∧
    distLe ⟨0, 0, 0⟩ ⟨1, 0, 0⟩ 5 = true ∧
    ((getNeighborGraph c8WorldStale "d1").map
      (fun g => g.neighbors.contains "d0")) = some true ∧
    ((getDrone c8WorldStale "d0").map (fun d => d.stale)) = some true := by
  with_unfolding_all decide

/-- Claim C8 (amended): the neighbor list computed by computeNeighborGraph
for a drone at a position is exactly the other drones of the map within
communication range of that position, in map order, with no staleness
filter; each drone's stored epsilon is the snapshot computed at its last
update, so stored graphs need not be symmetric. -/
theorem C8_neighbors_characterization (world : WorldModel)
    (droneId : String) (p : Vec3) :
    (computeNeighborGraph world droneId p).neighbors =
      ((world.drones.filter (fun e => decide (e.1 ≠ droneId) &&
        distLe p e.2.lastTelemetry.position world.config.commRange)).map
          (fun e => e.1)) := by
  show (WorldModel.drones world |>.foldl (neighborStep world droneId p)
    ⟨[], none, [], none, none⟩).neighbors = _
  rw [neighborFold_neighbors]
  rfl

theorem getLast?_cons_match {α : Type} (a : α) (l : List α) :
    (a :: l).getLast? =
      (match l.getLast? with | some y => some y | none => some a) := by
  induction l generalizing a with
  | nil => rfl
  | cons b l ih =>
    rw [List.getLast?_cons_cons]
    cases hl : l.getLast? <;> simp [ih b, hl]

theorem neighborStep_leader (world : WorldModel) (droneId : String)
    (p : Vec3) (m : DroneState) (hm : getDrone world droneId = some m)
    (hchi : m.coordinate.chi = FormationRole.follower)
    (acc : NeighborAcc) (e : String × DroneState) :
    (neighborStep world droneId p acc e).leader =
      (if decide (e.1 ≠ droneId) &&
          distLe p e.2.lastTelemetry.position world.config.commRange &&
          decide (e.2.coordinate.chi = FormationRole.leader)
        then some e.1 else acc.leader) := by
  unfold neighborStep
  by_cases h1 : e.1 = droneId
  · simp [h1]
  · by_cases h2 : distLe p e.2.lastTelemetry.position world.config.commRange
      = true
    · rw [hm]
      by_cases h3 : e.2.coordinate.chi = FormationRole.leader
      · simp [h1, h2, h3, hchi, apply_ite NeighborAcc.leader]
      · simp [h1, h2, h3, hchi, apply_ite NeighborAcc.leader]
    · simp [h1, h2]

theorem neighborFold_leader (world : WorldModel) (droneId : String)
    (p : Vec3) (m : DroneState) (hm : getDrone world droneId = some m)
    (hchi : m.coordinate.chi = FormationRole.follower)
    (entries : List (String × DroneState)) (acc : NeighborAcc) :
    (entries.foldl (neighborStep world droneId p) acc).leader =
      (match ((entries.filter (fun e => decide (e.1 ≠ droneId) &&
          distLe p e.2.lastTelemetry.position world.config.commRange &&
          decide (e.2.coordinate.chi = FormationRole.leader))).map
            (fun e => e.1)).getLast? with
       | some x => some x
       | none => acc.leader) := by
  induction entries generalizing acc with
  | nil => rfl
  | cons e rest ih =>
    rw [List.foldl_cons, ih]
    by_cases hq : (decide (e.1 ≠ droneId) &&
        distLe p e.2.lastTelemetry.position world.config.commRange &&
        decide (e.2.coordinate.chi = FormationRole.leader)) = true
    · rw [List.filter_cons, if_pos hq]
      rw [neighborStep_leader world droneId p m hm hchi, if_pos hq]
      simp only [List.map_cons]
      rw [getLast?_cons_match]
      cases hrest : ((rest.filter (fun e => decide (e.1 ≠ droneId) &&
          distLe p e.2.lastTelemetry.position world.config.commRange &&
          decide (e.2.coordinate.chi = FormationRole.leader))).map
            (fun e => e.1)).getLast? <;> simp [hrest]
    · rw [List.filter_cons, if_neg hq]
      rw [neighborStep_leader world droneId p m hm hchi, if_neg hq]

/-- Claim C9, counterexample to the claim as stated: with a follower at the
origin and two leaders in range, the leader field is the LAST leader in the
iteration order of the drone map, not the first: the map iterates l1 before
l2 (both in range and with chi leader), yet leader is l2. -/
theorem C9_leader_tiebreak_counterexample :
    (computeNeighborGraph c9World "f" ⟨0, 0, 0⟩).leader = some "l2" ∧
    ((c9World.drones.filter (fun e => decide (e.1 ≠ "f") &&
      distLe ⟨0, 0, 0⟩ e.2.lastTelemetry.position c9World.config.commRange &&
      decide (e.2.coordinate.chi = FormationRole.leader))).map
        (fun e => e.1)) = ["l1", "l2"] := by
  with_unfolding_all decide

/-- Claim C9 (amended): when the drone's chi is follower, the computed
leader field is the last in-range drone with chi leader in the iteration
order of the drone map (each discovered leader overwrites the previous
one); null when there is none. -/
theorem C9_leader_last_in_order (world : WorldModel) (droneId : String)
    (p : Vec3) (m : DroneState) (hm : getDrone world droneId = some m)
    (hchi : m.coordinate.chi = FormationRole.follower) :
    (computeNeighborGraph world droneId p).leader =
      ((world.drones.filter (fun e => decide (e.1 ≠ droneId) &&
        distLe p e.2.lastTelemetry.position world.config.commRange &&
        decide (e.2.coordinate.chi = FormationRole.leader))).map
          (fun e => e.1)).getLast? := by
  show (WorldModel.drones world |>.foldl (neighborStep world droneId p)
    ⟨[], none, [], none, none⟩).leader = _
  rw [neighborFold_leader world droneId p m hm hchi]
  cases hl : ((world.drones.filter (fun e => decide (e.1 ≠ droneId) &&
      distLe p e.2.lastTelemetry.position world.config.commRange &&
      decide (e.2.coordinate.chi = FormationRole.leader))).map
        (fun e => e.1)).getLast? <;> simp [hl]

/-- Witness for C9: the amended characterization evaluated on the concrete
two-leader world. -/
theorem C9_leader_last_in_order_witness :
    (computeNeighborGraph c9World "f" ⟨0, 0, 0⟩).leader =
      ((c9World.drones.filter (fun e => decide (e.1 ≠ "f") &&
        distLe ⟨0, 0, 0⟩ e.2.lastTelemetry.position
          c9World.config.commRange &&
        decide (e.2.coordinate.chi = FormationRole.leader))).map
          (fun e => e.1)).getLast? :=
  C9_leader_last_in_order c9World "f" ⟨0, 0, 0⟩
    (testDrone "f" .hover .follower ⟨0, 0, 0⟩ (mkRat 8 10) "p")
    (by decide) (by decide)

-- =========================================================================
-- Claims C1 and C5: constraint engine
-- =========================================================================

theorem getDrone_id {world : WorldModel} (hw : WellKeyedWorld world)
    {j : String} {d : DroneState} (h : getDrone world j = some d) :
    d.id = j := by
  unfold getDrone alGet at h
  cases hf : world.drones.find? (fun p => decide (p.1 = j)) with
  | none => rw [hf] at h; exact Option.noConfusion h
  | some p =>
    rw [hf] at h
    have h2 : p.2 = d := Option.some.inj h
    have hpred := List.find?_some hf
    have hmem := List.mem_of_find?_eq_some hf
    rw [← h2, hw p hmem]
    simpa using hpred

theorem lookupPattern_isSome_of_value {catalog : BehavioralCatalog}
    (hc : WellKeyedCatalog catalog) {p : BehavioralPattern}
    (h : p ∈ catalog.patterns.map (fun q => q.2)) :
    (lookupPattern catalog p.id).isSome := by
  obtain ⟨q, hq, rfl⟩ := List.mem_map.mp h
  unfold lookupPattern alGet
  rw [hc q hq]
  cases hf : catalog.patterns.find? (fun r => decide (r.1 = q.1)) with
  | some r => simp
  | none =>
    have := List.find?_eq_none.mp hf q hq
    simp at this

theorem mem_of_mem_insertSorted {α : Type} (le : α → α → Bool) (x y : α)
    (l : List α) (h : y ∈ insertSorted le x l) : y = x ∨ y ∈ l := by
  induction l with
  | nil =>
    simp only [insertSorted, List.mem_singleton] at h
    exact Or.inl h
  | cons z zs ih =>
    unfold insertSorted at h
    by_cases hc : le x z = true
    · rw [if_pos hc] at h
      rcases List.mem_cons.mp h with h | h
      · exact Or.inl h
      · exact Or.inr h
    · rw [if_neg hc] at h
      rcases List.mem_cons.mp h with h | h
      · exact Or.inr (h ▸ List.mem_cons_self z zs)
      · rcases ih h with h | h
        · exact Or.inl h
        · exact Or.inr (List.mem_cons_of_mem z h)

theorem mem_of_mem_sortBy {α : Type} (le : α → α → Bool) (y : α)
    (l : List α) (h : y ∈ sortBy le l) : y ∈ l := by
  induction l with
  | nil => simp [sortBy] at h
  | cons z zs ih =>
    unfold sortBy at h
    rcases mem_of_mem_insertSorted le z y (sortBy le zs) h with h | h
    · exact h ▸ List.mem_cons_self z zs
    · exact List.mem_cons_of_mem z (ih h)

theorem foldl_choose_mem {α : Type} (choose : α → α → α)
    (hch : ∀ a b, choose a b = a ∨ choose a b = b) (l : List α)
    (init : α) : l.foldl choose init = init ∨ l.foldl choose init ∈ l := by
  induction l generalizing init with
  | nil => exact Or.inl rfl
  | cons x xs ih =>
    rw [List.foldl_cons]
    rcases ih (choose init x) with h | h
    · rcases hch init x with h2 | h2
      · exact Or.inl (h.trans h2)
      · exact Or.inr (by rw [h, h2]; exact List.mem_cons_self x xs)
    · exact Or.inr (List.mem_cons_of_mem x h)

theorem hoverPick_or (a b : BehavioralPattern) :
    hoverPick a b = a ∨ hoverPick a b = b := by
  unfold hoverPick
  by_cases hc : b.preconditions.battery_floor <
    a.preconditions.battery_floor
  · exact Or.inr (if_pos hc)
  · exact Or.inl (if_neg hc)

theorem findFallbackHover_mem {d : DroneState}
    {catalog : BehavioralCatalog} {p : BehavioralPattern}
    (h : findFallbackHover d catalog = some p) :
    p ∈ catalog.patterns.map (fun q => q.2) := by
  unfold findFallbackHover at h
  split at h
  · exact absurd h (by simp)
  next a t heq =>
    simp only [Option.some.injEq] at h
    have hmem : p ∈ a :: t := by
      rcases foldl_choose_mem hoverPick hoverPick_or t a with hc | hc
      · rw [← h, hc]; exact List.mem_cons_self a t
      · rw [← h]; exact List.mem_cons_of_mem a hc
    have hx := hmem
    rw [← heq] at hx
    exact List.mem_of_mem_filter hx

theorem findEmergencyFallback_mem {d : DroneState}
    {catalog : BehavioralCatalog} {p : BehavioralPattern}
    (h : findEmergencyFallback d catalog = some p) :
    p ∈ catalog.patterns.map (fun q => q.2) := by
  unfold findEmergencyFallback at h
  split at h
  · exact absurd h (by simp)
  next e rest heq =>
    have hsub : ∀ x ∈ e :: rest, x ∈ catalog.patterns.map (fun q => q.2) := by
      intro x hx
      rw [← heq] at hx
      exact List.mem_of_mem_filter (List.mem_of_mem_filter hx)
    split at h
    next lp hfind =>
      simp only [Option.some.injEq] at h
      exact h ▸ hsub lp (List.mem_of_find?_eq_some hfind)
    next =>
      simp only [Option.some.injEq] at h
      exact h ▸ hsub e (List.mem_cons_self e rest)

theorem solveCandidates_sub {d : DroneState} {world : WorldModel}
    {catalog : BehavioralCatalog} {assigned : List (String × String)}
    {p : BehavioralPattern}
    (h : p ∈ solveCandidates d world catalog assigned) :
    p ∈ catalog.patterns.map (fun q => q.2) := by
  unfold solveCandidates at h
  exact List.mem_of_mem_filter (List.mem_of_mem_filter
    (List.mem_of_mem_filter (List.mem_of_mem_filter h)))

theorem forcedExitTarget_lookup_isSome {d : DroneState}
    {catalog : BehavioralCatalog} {t : String}
    (h : forcedExitTarget d catalog = some t) :
    (lookupPattern catalog t).isSome := by
  unfold forcedExitTarget at h
  split at h
  · exact absurd h (by simp)
  next cp heq =>
    split at h
    · exact absurd h (by simp)
    next tgt heq2 =>
      split at h
      · exact absurd h (by simp)
      next tp heq3 =>
        simp only [Option.some.injEq] at h
        rw [← h, heq3]
        rfl

theorem solveForDrone_droneId {d : DroneState} {world : WorldModel}
    {catalog : BehavioralCatalog} {objectives : List SwarmObjective}
    {assigned : List (String × String)} :
    (solveForDrone d world catalog objectives assigned).droneId = d.id := by
  unfold solveForDrone
  split
  · rfl
  · split
    · rfl
    · split
      · rfl
      · split
        · rfl
        · rfl

theorem solveForDrone_sound {d : DroneState} {world : WorldModel}
    {catalog : BehavioralCatalog} {objectives : List SwarmObjective}
    {assigned : List (String × String)} (hc : WellKeyedCatalog catalog) :
    (solveForDrone d world catalog objectives assigned).droneId = d.id ∧
    ((lookupPattern catalog
        (solveForDrone d world catalog objectives assigned).patternId).isSome ∨
      (solveForDrone d world catalog objectives assigned).patternId =
        d.currentPattern) := by
  unfold solveForDrone
  cases hf : forcedExitTarget d catalog with
  | some t =>
    exact ⟨rfl, Or.inl (forcedExitTarget_lookup_isSome hf)⟩
  | none =>
    cases hs : solveScored d objectives
        (solveCandidates d world catalog assigned) with
    | cons best rest =>
      refine ⟨rfl, Or.inl ?_⟩
      have hb : best ∈ solveScored d objectives
          (solveCandidates d world catalog assigned) := by
        rw [hs]; exact List.mem_cons_self best rest
      unfold solveScored at hb
      have hb2 := mem_of_mem_sortBy _ best _ hb
      obtain ⟨q, hq, hqe⟩ := List.mem_map.mp hb2
      show (lookupPattern catalog best.1.id).isSome = true
      have hbq : best.1 = q := by rw [← hqe]
      rw [hbq]
      exact lookupPattern_isSome_of_value hc (solveCandidates_sub hq)
    | nil =>
      cases hh : findFallbackHover d catalog with
      | some hp =>
        exact ⟨rfl, Or.inl (lookupPattern_isSome_of_value hc
          (findFallbackHover_mem hh))⟩
      | none =>
        cases hem : findEmergencyFallback d catalog with
        | some ep =>
          exact ⟨rfl, Or.inl (lookupPattern_isSome_of_value hc
            (findEmergencyFallback_mem hem))⟩
        | none => exact ⟨rfl, Or.inr rfl⟩

theorem solveLoop_map {world : WorldModel} {catalog : BehavioralCatalog}
    {objectives : List SwarmObjective} (hw : WellKeyedWorld world)
    (hc : WellKeyedCatalog catalog) :
    ∀ (affected : List String) (assigned : List (String × String)),
      (solveLoop world catalog objectives affected assigned).map
          (fun a => a.droneId) =
        affected.filter (fun id => (getDrone world id).isSome) := by
  intro affected
  induction affected with
  | nil => intro assigned; rfl
  | cons id rest ih =>
    intro assigned
    unfold solveLoop
    cases hd : getDrone world id with
    | none =>
      rw [List.filter_cons, if_neg (by rw [hd]; simp)]
      exact ih assigned
    | some d =>
      rw [List.filter_cons, if_pos (by rw [hd]; rfl)]
      simp only [List.map_cons]
      rw [(@solveForDrone_sound d world catalog objectives assigned
        hc).1, getDrone_id hw hd]
      rw [ih]

theorem solveLoop_sound {world : WorldModel} {catalog : BehavioralCatalog}
    {objectives : List SwarmObjective} (hw : WellKeyedWorld world)
    (hc : WellKeyedCatalog catalog) :
    ∀ (affected : List String) (assigned : List (String × String)),
      ∀ a ∈ solveLoop world catalog objectives affected assigned,
        ∃ d, getDrone world a.droneId = some d ∧
          ((lookupPattern catalog a.patternId).isSome ∨
            a.patternId = d.currentPattern) := by
  intro affected
  induction affected with
  | nil => intro assigned a ha; simp [solveLoop] at ha
  | cons id rest ih =>
    intro assigned a ha
    unfold solveLoop at ha
    cases hd : getDrone world id with
    | none =>
      rw [hd] at ha
      exact ih assigned a ha
    | some d =>
      rw [hd] at ha
      rcases List.mem_cons.mp ha with h | h
      · subst h
        have hsnd := @solveForDrone_sound d world catalog objectives
          assigned hc
        refine ⟨d, ?_, hsnd.2⟩
        rw [hsnd.1, getDrone_id hw hd]
        exact hd
      · exact ih _ a h

/-- Claim C5: solveAssignment is total and catalog-sound.  It never fails:
for every world, catalog, affected list and objectives it returns exactly
one assignment per affected drone present in the world model, in order
(drones missing from the world are silently skipped), and every returned
assignment names a pattern that exists in the catalog or, as the last
resort, the drone's own current pattern. -/
theorem C5_solver_totality (world : WorldModel)
    (catalog : BehavioralCatalog) (affected : List String)
    (objectives : List SwarmObjective) (hw : WellKeyedWorld world)
    (hc : WellKeyedCatalog catalog) :
    ((solveAssignment world catalog affected objectives).map
        (fun a => a.droneId) =
      affected.filter (fun id => (getDrone world id).isSome)) ∧
    (∀ a ∈ solveAssignment world catalog affected objectives,
      ∃ d, getDrone world a.droneId = some d ∧
        ((lookupPattern catalog a.patternId).isSome ∨
          a.patternId = d.currentPattern)) :=
  ⟨solveLoop_map hw hc affected [], solveLoop_sound hw hc affected []⟩

/-- Witness for C5: evaluated on the concrete low-battery world (the
affected list names the drone and one unknown id, which is skipped). -/
theorem C5_solver_totality_witness :
    WellKeyedWorld c15World ∧ WellKeyedCatalog c15Catalog ∧
    ((solveAssignment c15World c15Catalog ["d0", "ghost"] []).map
        (fun a => a.droneId) =
      (["d0", "ghost"].filter (fun id => (getDrone c15World id).isSome))) :=
  ⟨by unfold WellKeyedWorld; decide, by unfold WellKeyedCatalog; decide,
    (C5_solver_totality c15World c15Catalog ["d0", "ghost"] []
      (by unfold WellKeyedWorld; decide)
      (by unfold WellKeyedCatalog; decide)).1⟩

theorem solveForDrone_forced {d : DroneState} {world : WorldModel}
    {catalog : BehavioralCatalog} {objectives : List SwarmObjective}
    {assigned : List (String × String)} {cp : BehavioralPattern}
    {e : ForcedExit} {tp : BehavioralPattern}
    (hcp : lookupPattern catalog d.currentPattern = some cp)
    (hfind : cp.postconditions.forced_exits.find?
      (fun x => evaluateCondition x.condition d) = some e)
    (htgt : lookupPattern catalog e.target_pattern = some tp) :
    solveForDrone d world catalog objectives assigned =
      { droneId := d.id, patternId := e.target_pattern } := by
  have hcf : checkForcedExits d cp = some e.target_pattern := by
    unfold checkForcedExits
    rw [hfind]
  have hforced : forcedExitTarget d catalog = some e.target_pattern := by
    unfold forcedExitTarget
    split
    next heq => rw [hcp] at heq; exact Option.noConfusion heq
    next cp' heq =>
      have hcp' : cp' = cp := by
        rw [hcp] at heq
        exact (Option.some.inj heq).symm
      subst hcp'
      split
      next heq2 => rw [hcf] at heq2; exact Option.noConfusion heq2
      next tgt heq2 =>
        have htg : tgt = e.target_pattern := by
          rw [hcf] at heq2
          exact (Option.some.inj heq2).symm
        subst htg
        split
        next heq3 => rw [htgt] at heq3; exact Option.noConfusion heq3
        next tp' heq3 => rfl
  unfold solveForDrone
  rw [hforced]

theorem solveLoop_forced {world : WorldModel} {catalog : BehavioralCatalog}
    {objectives : List SwarmObjective} {droneId : String} {d : DroneState}
    {cp : BehavioralPattern} {e : ForcedExit} {tp : BehavioralPattern}
    (hw : WellKeyedWorld world)
    (hd : getDrone world droneId = some d)
    (hcp : lookupPattern catalog d.currentPattern = some cp)
    (hfind : cp.postconditions.forced_exits.find?
      (fun x => evaluateCondition x.condition d) = some e)
    (htgt : lookupPattern catalog e.target_pattern = some tp) :
    ∀ (affected : List String) (assigned : List (String × String)),
      (droneId ∈ affected →
        ({ droneId := droneId, patternId := e.target_pattern } :
          Assignment) ∈ solveLoop world catalog objectives affected
            assigned) ∧
      (∀ a ∈ solveLoop world catalog objectives affected assigned,
        a.droneId = droneId → a.patternId = e.target_pattern) := by
  intro affected
  induction affected with
  | nil => intro assigned; exact ⟨by simp, by intro a ha; simp [solveLoop] at ha⟩
  | cons id rest ih =>
    intro assigned
    constructor
    · intro hmem
      unfold solveLoop
      rcases List.mem_cons.mp hmem with heq | hmem'
      · subst heq
        rw [hd]
        show ({ droneId := droneId, patternId := e.target_pattern } :
            Assignment) ∈
          solveForDrone d world catalog objectives assigned ::
            solveLoop world catalog objectives rest
              (alSet assigned droneId
                (solveForDrone d world catalog objectives
                  assigned).patternId)
        rw [@solveForDrone_forced d world catalog objectives assigned
          cp e tp hcp hfind htgt]
        rw [getDrone_id hw hd]
        exact List.mem_cons_self _ _
      · cases hg : getDrone world id with
        | none => exact (ih assigned).1 hmem'
        | some d' =>
          exact List.mem_cons_of_mem _
            ((ih (alSet assigned id (solveForDrone d' world catalog
              objectives assigned).patternId)).1 hmem')
    · intro a ha haid
      unfold solveLoop at ha
      cases hg : getDrone world id with
      | none =>
        rw [hg] at ha
        exact (ih assigned).2 a ha haid
      | some d' =>
        rw [hg] at ha
        rcases List.mem_cons.mp ha with h | h
        · subst h
          rw [solveForDrone_droneId] at haid
          have hid : id = droneId := (getDrone_id hw hg).symm.trans haid
          subst hid
          have hdd : d' = d := by
            rw [hg] at hd
            exact (Option.some.injEq _ _).mp hd
          subst hdd
          rw [@solveForDrone_forced d' world catalog objectives assigned
            cp e tp hcp hfind htgt]
        · exact (ih _).2 a h haid

/-- Claim C1: the forced exit overrides everything.  If an affected drone's
current pattern exists in the catalog, the first forced exit whose
condition evaluates true against its telemetry has a target that exists in
the catalog, then the constraint engine assigns exactly that target to the
drone — for every objective list (including land-all), every neighbor
assignment context, and regardless of scoring, preconditions, transition
validity or compatibility. -/
theorem C1_forced_exit_override (world : WorldModel)
    (catalog : BehavioralCatalog) (affected : List String)
    (objectives : List SwarmObjective) (droneId : String) (d : DroneState)
    (cp : BehavioralPattern) (e : ForcedExit) (tp : BehavioralPattern)
    (hw : WellKeyedWorld world) (hmem : droneId ∈ affected)
    (hd : getDrone world droneId = some d)
    (hcp : lookupPattern catalog d.currentPattern = some cp)
    (hfind : cp.postconditions.forced_exits.find?
      (fun x => evaluateCondition x.condition d) = some e)
    (htgt : lookupPattern catalog e.target_pattern = some tp) :
    ({ droneId := droneId, patternId := e.target_pattern } : Assignment) ∈
      solveAssignment world catalog affected objectives ∧
    (∀ a ∈ solveAssignment world catalog affected objectives,
      a.droneId = droneId → a.patternId = e.target_pattern) :=
  ⟨(solveLoop_forced hw hd hcp hfind htgt affected []).1 hmem,
   (solveLoop_forced hw hd hcp hfind htgt affected []).2⟩

/-- Witness for C1: on the concrete low-battery world under the land-all
objective, the drone is assigned the forced-exit target. -/
theorem C1_forced_exit_override_witness :
    ({ droneId := "d0", patternId := "eland" } : Assignment) ∈
      solveAssignment c15World c15Catalog ["d0"]
        [{ type := ObjectiveType.landAll }] :=
  (C1_forced_exit_override c15World c15Catalog ["d0"]
    [{ type := ObjectiveType.landAll }] "d0" c15Drone c15Hover
    ⟨"battery < 0.10", "eland"⟩ c15Land
    (by unfold WellKeyedWorld; decide) (by decide) (by decide) (by decide)
    (by with_unfolding_all decide) (by decide)).1

-- =========================================================================
-- Claim C2: role-assignment safety rule
-- =========================================================================

theorem alGet_cons_eq {α : Type} (hd : String × α)
    (tl : List (String × α)) (k : String) (hk : hd.1 = k) :
    alGet (hd :: tl) k = some hd.2 := by
  unfold alGet
  rw [List.find?_cons]
  have hd1 : (decide (hd.1 = k)) = true := by simp [hk]
  rw [hd1]
  rfl

theorem alGet_cons_ne {α : Type} (hd : String × α)
    (tl : List (String × α)) (k : String) (hk : ¬ hd.1 = k) :
    alGet (hd :: tl) k = alGet tl k := by
  unfold alGet
  rw [List.find?_cons]
  have hd1 : (decide (hd.1 = k)) = false := by simp [hk]
  rw [hd1]

theorem alGet_filter_keep {α : Type} (m : List (String × α)) (k : String)
    (v : α) (f : String × α → Bool) (h : alGet m k = some v)
    (hf : f (k, v) = true) : alGet (m.filter f) k = some v := by
  induction m with
  | nil => exact absurd h (by simp [alGet])
  | cons hd tl ih =>
    by_cases hk : hd.1 = k
    · have hv : hd.2 = v := by
        rw [alGet_cons_eq hd tl k hk] at h
        exact Option.some.inj h
      have hdkv : hd = (k, v) := by
        cases hd
        simp only at hk hv
        rw [hk, hv]
      rw [List.filter_cons, if_pos (hdkv ▸ hf)]
      rw [alGet_cons_eq hd (tl.filter f) k hk, hv]
    · have h' : alGet tl k = some v := by
        rw [alGet_cons_ne hd tl k hk] at h
        exact h
      rw [List.filter_cons]
      by_cases hkeep : f hd = true
      · rw [if_pos hkeep]
        rw [alGet_cons_ne hd (tl.filter f) k hk]
        exact ih h'
      · rw [if_neg hkeep]
        exact ih h'

theorem alGet_foldl_alSet_of_ne (g : DroneState → FormationRole) :
    ∀ (l : List DroneState) (init : List (String × FormationRole))
      (k : String), (∀ x ∈ l, x.id ≠ k) →
      alGet (l.foldl (fun m x => alSet m x.id (g x)) init) k =
        alGet init k := by
  intro l
  induction l with
  | nil => intro init k _; rfl
  | cons x xs ih =>
    intro init k hne
    rw [List.foldl_cons]
    rw [ih (alSet init x.id (g x)) k
      (fun y hy => hne y (List.mem_cons_of_mem x hy))]
    exact alGet_alSet_ne init x.id k (g x)
      (fun hc => hne x (List.mem_cons_self x xs) hc.symm) |>.symm ▸ rfl

theorem alGet_foldl_alSet_self (g : DroneState → FormationRole) :
    ∀ (l : List DroneState), ((l.map (fun x => x.id)).Nodup) →
      ∀ d ∈ l, ∀ (init : List (String × FormationRole)),
      alGet (l.foldl (fun m x => alSet m x.id (g x)) init) d.id =
        some (g d) := by
  intro l
  induction l with
  | nil => intro _ d hd; exact absurd hd (by simp)
  | cons x xs ih =>
    intro hno d hd init
    rw [List.foldl_cons]
    simp only [List.map_cons, List.nodup_cons] at hno
    rcases List.mem_cons.mp hd with heq | hmem
    · subst heq
      have hne : ∀ y ∈ xs, y.id ≠ d.id := by
        intro y hy hc
        exact hno.1 (hc ▸ List.mem_map_of_mem (fun z => z.id) hy)
      rw [alGet_foldl_alSet_of_ne g xs (alSet init d.id (g d)) d.id hne]
      exact alGet_alSet_same init d.id (g d)
    · exact ih hno.2 d hmem (alSet init x.id (g x))

theorem foldl_optChoose_mem {α : Type} (f : Option α → α → Option α)
    (hf : ∀ acc x, f acc x = acc ∨ f acc x = some x) :
    ∀ (l : List α) (init : Option α),
      l.foldl f init = init ∨ ∃ x ∈ l, l.foldl f init = some x := by
  intro l
  induction l with
  | nil => intro init; exact Or.inl rfl
  | cons x xs ih =>
    intro init
    rw [List.foldl_cons]
    rcases ih (f init x) with h | h
    · rcases hf init x with h2 | h2
      · exact Or.inl (h.trans h2)
      · exact Or.inr ⟨x, List.mem_cons_self x xs, h.trans h2⟩
    · obtain ⟨y, hy, hyy⟩ := h
      exact Or.inr ⟨y, List.mem_cons_of_mem x hy, hyy⟩

theorem roleInv_setRole_ne {did : String} {st : RoleState} (x : String)
    (r : FormationRole) (hne : x ≠ did) (h : RoleInv did st) :
    RoleInv did (setRole st x r) := by
  unfold RoleInv setRole at *
  constructor
  · rw [alGet_alSet_ne st.eff x did r (fun hc => hne hc.symm)]
    exact h.1
  · rw [alGet_alSet_ne st.changes x did r (fun hc => hne hc.symm)]
    exact h.2

theorem roleRule1Step_preserve (cfg : RoleAssignmentConfig)
    (did : String) (st : RoleState) (d : DroneState)
    (h : RoleInv did st) : RoleInv did (roleRule1Step cfg st d) := by
  unfold roleRule1Step
  split
  · exact h
  next cur halg =>
    split
    next hc =>
      by_cases hx : d.id = did
      · exfalso
        rw [hx] at halg
        have hcur : FormationRole.chargerInbound = cur :=
          Option.some.inj (h.1.symm.trans halg)
        exact hc.2 (by rw [← hcur]; rfl)
      · exact roleInv_setRole_ne d.id FormationRole.chargerInbound hx h
    next => exact h

theorem roleRule1_preserve (cfg : RoleAssignmentConfig) (did : String)
    (l : List DroneState) (st : RoleState) (h : RoleInv did st) :
    RoleInv did (roleRule1 cfg l st) := by
  unfold roleRule1
  induction l generalizing st with
  | nil => exact h
  | cons x xs ih =>
    rw [List.foldl_cons]
    exact ih (roleRule1Step cfg st x) (roleRule1Step_preserve cfg did st x h)

theorem roleRule1_establish (cfg : RoleAssignmentConfig) (d : DroneState)
    (hbatt : d.lastTelemetry.battery.percentage <
      cfg.batteryChargeThreshold)
    (hrole : chargingRole d.coordinate.chi = false) :
    ∀ (l : List DroneState), ((l.map (fun x => x.id)).Nodup) → d ∈ l →
      ∀ (st : RoleState), alGet st.eff d.id = some d.coordinate.chi →
      RoleInv d.id (roleRule1 cfg l st) := by
  intro l
  induction l with
  | nil => intro _ hd; exact absurd hd (by simp)
  | cons x xs ih =>
    intro hno hd st halg
    simp only [List.map_cons, List.nodup_cons] at hno
    unfold roleRule1
    rw [List.foldl_cons]
    rcases List.mem_cons.mp hd with heq | hmem
    · subst heq
      have hstep : roleRule1Step cfg st d =
          setRole st d.id FormationRole.chargerInbound := by
        unfold roleRule1Step
        rw [halg]
        show (if d.lastTelemetry.battery.percentage <
            cfg.batteryChargeThreshold ∧
            ¬(chargingRole d.coordinate.chi = true)
          then setRole st d.id FormationRole.chargerInbound else st) = _
        rw [if_pos ⟨hbatt, by rw [hrole]; simp⟩]
      rw [hstep]
      have hinv : RoleInv d.id (setRole st d.id
          FormationRole.chargerInbound) :=
        ⟨alGet_alSet_same st.eff d.id FormationRole.chargerInbound,
         alGet_alSet_same st.changes d.id FormationRole.chargerInbound⟩
      exact roleRule1_preserve cfg d.id xs _ hinv
    · have hxid : x.id ≠ d.id := by
        intro hc
        exact hno.1 (hc ▸ List.mem_map_of_mem (fun z => z.id) hmem)
      have halg' : alGet (roleRule1Step cfg st x).eff d.id =
          some d.coordinate.chi := by
        unfold roleRule1Step
        split
        · exact halg
        next cur hax =>
          split
          next hc =>
            show alGet (alSet st.eff x.id FormationRole.chargerInbound)
              d.id = some d.coordinate.chi
            rw [alGet_alSet_ne st.eff x.id d.id
              FormationRole.chargerInbound (fun hc2 => hxid hc2.symm)]
            exact halg
          next => exact halg
      exact ih hno.2 hmem (roleRule1Step cfg st x) halg'

theorem roleRule2Step_preserve (cfg : RoleAssignmentConfig)
    (did : String) (st : RoleState) (d : DroneState)
    (h : RoleInv did st) : RoleInv did (roleRule2Step cfg st d) := by
  unfold roleRule2Step
  split
  · exact h
  next cur halg =>
    split
    next hc =>
      by_cases hx : d.id = did
      · exfalso
        rw [hx] at halg
        have hcur : FormationRole.chargerInbound = cur :=
          Option.some.inj (h.1.symm.trans halg)
        rw [← hcur] at hc
        exact FormationRole.noConfusion hc.1
      · exact roleInv_setRole_ne d.id FormationRole.chargerOutbound hx h
    next => exact h

theorem roleRule2_preserve (cfg : RoleAssignmentConfig) (did : String)
    (l : List DroneState) (st : RoleState) (h : RoleInv did st) :
    RoleInv did (roleRule2 cfg l st) := by
  unfold roleRule2
  induction l generalizing st with
  | nil => exact h
  | cons x xs ih =>
    rw [List.foldl_cons]
    exact ih (roleRule2Step cfg st x) (roleRule2Step_preserve cfg did st x h)

theorem roleRule3Step_preserve (formation : FormationSpec)
    (did : String) (st : RoleState) (d : DroneState)
    (h : RoleInv did st) : RoleInv did (roleRule3Step formation st d) := by
  unfold roleRule3Step
  split
  · exact h
  next cur halg =>
    split
    next hc =>
      by_cases hx : d.id = did
      · exfalso
        rw [hx] at halg
        have hcur : FormationRole.chargerInbound = cur :=
          Option.some.inj (h.1.symm.trans halg)
        rw [← hcur] at hc
        exact FormationRole.noConfusion hc.1
      · split
        · exact roleInv_setRole_ne d.id FormationRole.performer hx h
        · exact roleInv_setRole_ne d.id FormationRole.reserve hx h
    next => exact h

theorem roleRule3_preserve (formation : FormationSpec) (did : String)
    (l : List DroneState) (st : RoleState) (h : RoleInv did st) :
    RoleInv did (roleRule3 formation l st) := by
  unfold roleRule3
  induction l generalizing st with
  | nil => exact h
  | cons x xs ih =>
    rw [List.foldl_cons]
    exact ih (roleRule3Step formation st x)
      (roleRule3Step_preserve formation did st x h)

theorem relayFoldStep_choose (coverage : CoverageSpec)
    (acc : Option DroneState) (x : DroneState) :
    relayFoldStep coverage acc x = acc ∨
      relayFoldStep coverage acc x = some x := by
  cases acc with
  | none => exact Or.inr rfl
  | some e =>
    simp only [relayFoldStep]
    split
    · exact Or.inr rfl
    · exact Or.inl rfl

theorem pickRelayCandidate_mem (drones : List DroneState)
    (eff : List (String × FormationRole)) (coverage : CoverageSpec)
    (cfg : RoleAssignmentConfig) (c : DroneState)
    (h : pickRelayCandidate drones eff coverage cfg = some c) :
    c ∈ drones.filter (roleEligible eff cfg) := by
  unfold pickRelayCandidate at h
  rcases foldl_optChoose_mem (relayFoldStep coverage)
      (relayFoldStep_choose coverage)
      (drones.filter (roleEligible eff cfg)) none with h2 | h2
  · rw [h] at h2; exact Option.noConfusion h2
  · obtain ⟨x, hx, hxx⟩ := h2
    rw [h] at hxx
    have hcx : c = x := Option.some.inj hxx
    rw [hcx]
    exact hx

theorem pickLeaderCandidate_mem (drones : List DroneState)
    (eff : List (String × FormationRole)) (cfg : RoleAssignmentConfig)
    (c : DroneState) (h : pickLeaderCandidate drones eff cfg = some c) :
    c ∈ drones.filter (roleEligible eff cfg) := by
  unfold pickLeaderCandidate at h
  cases hls : sortBy leaderLe (drones.filter (roleEligible eff cfg)) with
  | nil => rw [hls] at h; exact Option.noConfusion h
  | cons hd tl =>
    rw [hls] at h
    have hc : hd = c := Option.some.inj h
    have hmem : c ∈ sortBy leaderLe (drones.filter (roleEligible eff cfg))
      := by
      rw [hls, ← hc]
      exact List.mem_cons_self hd tl
    exact mem_of_mem_sortBy leaderLe c _ hmem

theorem roleEligible_ne (eff : List (String × FormationRole))
    (cfg : RoleAssignmentConfig) (d : DroneState) (did : String)
    (heff : alGet eff did = some FormationRole.chargerInbound)
    (h : roleEligible eff cfg d = true) : d.id ≠ did := by
  intro hc
  unfold roleEligible at h
  rw [hc, heff] at h
  exact Bool.noConfusion h

theorem roleRule4_preserve (coverage : CoverageSpec)
    (cfg : RoleAssignmentConfig) (drones : List DroneState) (did : String)
    (st : RoleState) (h : RoleInv did st) :
    RoleInv did (roleRule4 coverage cfg drones st) := by
  unfold roleRule4
  split
  · split
    · exact h
    · split
      next c hc =>
        exact roleInv_setRole_ne c.id FormationRole.relay
          (roleEligible_ne st.eff cfg c did h.1
            (List.mem_filter.mp
              (pickRelayCandidate_mem drones st.eff coverage cfg c hc)).2)
          h
      next => exact h
  · exact h

theorem roleRule5_preserve (formation : FormationSpec)
    (cfg : RoleAssignmentConfig) (drones : List DroneState) (did : String)
    (st : RoleState) (h : RoleInv did st) :
    RoleInv did (roleRule5 formation cfg drones st) := by
  unfold roleRule5
  split
  · split
    · exact h
    · split
      next c hc =>
        exact roleInv_setRole_ne c.id FormationRole.leader
          (roleEligible_ne st.eff cfg c did h.1
            (List.mem_filter.mp
              (pickLeaderCandidate_mem drones st.eff cfg c hc)).2) h
      next => exact h
  · exact h

theorem foldSetRole_preserve (r : FormationRole) (did : String) :
    ∀ (l : List DroneState), (∀ d ∈ l, d.id ≠ did) →
      ∀ st : RoleState, RoleInv did st →
      RoleInv did (l.foldl (fun st d => setRole st d.id r) st) := by
  intro l
  induction l with
  | nil => intro _ st h; exact h
  | cons x xs ih =>
    intro hne st h
    rw [List.foldl_cons]
    exact ih (fun d hd => hne d (List.mem_cons_of_mem x hd)) _
      (roleInv_setRole_ne x.id r (hne x (List.mem_cons_self x xs)) h)

theorem foldSetRoleIf_preserve (r : FormationRole) (did : String)
    (P : DroneState → Prop) [DecidablePred P] :
    ∀ (l : List DroneState), (∀ d ∈ l, d.id ≠ did) →
      ∀ st : RoleState, RoleInv did st →
      RoleInv did (l.foldl
        (fun st d => if P d then setRole st d.id r else st) st) := by
  intro l
  induction l with
  | nil => intro _ st h; exact h
  | cons x xs ih =>
    intro hne st h
    rw [List.foldl_cons]
    have htail := fun d hd => hne d (List.mem_cons_of_mem x hd)
    by_cases hp : P x
    · rw [if_pos hp]
      exact ih htail _ (roleInv_setRole_ne x.id r
        (hne x (List.mem_cons_self x xs)) h)
    · rw [if_neg hp]
      exact ih htail _ h

theorem roleRule6_preserve (formation : FormationSpec)
    (drones : List DroneState) (did : String) (st : RoleState)
    (h : RoleInv did st) : RoleInv did (roleRule6 formation drones st) := by
  unfold roleRule6
  split
  · apply foldSetRole_preserve
    · intro d hd hc
      have hmem := mem_of_mem_sortBy (fun a b =>
          decide (b.lastTelemetry.battery.percentage ≤
            a.lastTelemetry.battery.percentage)) d _
          (List.mem_of_mem_take hd)
      have hget : alGet st.eff d.id = some FormationRole.reserve :=
        of_decide_eq_true (List.mem_filter.mp hmem).2
      rw [hc] at hget
      exact FormationRole.noConfusion
        (Option.some.inj (h.1.symm.trans hget))
    · exact h
  · exact h

theorem mem_of_mem_performersSorted (drones : List DroneState)
    (eff : List (String × FormationRole)) (d : DroneState)
    (h : d ∈ performersSorted drones eff) :
    alGet eff d.id = some FormationRole.performer := by
  unfold performersSorted at h
  exact of_decide_eq_true
    (List.mem_filter.mp (mem_of_mem_sortBy _ d _ h)).2

theorem roleRule7_preserve (formation : FormationSpec)
    (drones : List DroneState) (did : String) (st : RoleState)
    (h : RoleInv did st) : RoleInv did (roleRule7 formation drones st) := by
  unfold roleRule7
  split
  · refine foldSetRoleIf_preserve FormationRole.reserve did
      (fun d => d.lastTelemetry.battery.percentage < mkRat 1 2) _ ?_ st h
    intro d hd hc
    have hget := mem_of_mem_performersSorted drones st.eff d
      (List.mem_of_mem_take hd)
    rw [hc] at hget
    exact FormationRole.noConfusion
      (Option.some.inj (h.1.symm.trans hget))
  · exact h

theorem roleRule8_preserve (cfg : RoleAssignmentConfig)
    (ticks : Option (String → Option ℚ)) (did : String) (st : RoleState)
    (h : RoleInv did st) : RoleInv did (roleRule8 cfg ticks st) := by
  unfold roleRule8
  split
  · exact h
  next tickOf =>
    refine ⟨h.1, ?_⟩
    exact alGet_filter_keep st.changes did FormationRole.chargerInbound _
      h.2 rfl

theorem getDrone_pair_mem {world : WorldModel} {j : String}
    {d : DroneState} (h : getDrone world j = some d) :
    (j, d) ∈ world.drones := by
  unfold getDrone alGet at h
  cases hf : world.drones.find? (fun p => decide (p.1 = j)) with
  | none => rw [hf] at h; exact Option.noConfusion h
  | some p =>
    rw [hf] at h
    have h2 : p.2 = d := Option.some.inj h
    have hpred := List.find?_some hf
    have h1 : p.1 = j := by simpa using hpred
    have hp : p = (j, d) := by
      cases p
      simp only at h1 h2
      rw [h1, h2]
    exact hp ▸ List.mem_of_find?_eq_some hf

theorem mem_activeDrones {world : WorldModel} (hwk : WellKeyedWorld world)
    {j : String} {d : DroneState} (hd : getDrone world j = some d)
    (hstale : d.stale = false) : d ∈ activeDrones world := by
  unfold activeDrones
  rw [List.mem_filterMap]
  refine ⟨j, ?_, hd⟩
  unfold getActiveDroneIds
  have hmem : (j, d) ∈ world.drones := getDrone_pair_mem hd
  have hdm : d ∈ world.drones.map (fun p => p.2) :=
    List.mem_map_of_mem (fun p => p.2) hmem
  have hfil : d ∈ (world.drones.map (fun p => p.2)).filter
      (fun x => !x.stale) :=
    List.mem_filter.mpr ⟨hdm, by rw [hstale]; rfl⟩
  show j ∈ ((world.drones.map (fun p => p.2)).filter
      (fun x => !x.stale)).map (fun x => x.id)
  rw [← getDrone_id hwk hd]
  exact List.mem_map_of_mem (fun x => x.id) hfil

theorem map_id_filterMap_sublist (f : String → Option DroneState)
    (hf : ∀ j d, f j = some d → d.id = j) :
    ∀ l : List String,
      ((l.filterMap f).map (fun d => d.id)).Sublist l := by
  intro l
  induction l with
  | nil => simp
  | cons x xs ih =>
    rw [List.filterMap_cons]
    cases hx : f x with
    | none => exact List.Sublist.cons x ih
    | some d =>
      show List.Sublist (d.id :: (xs.filterMap f).map (fun y => y.id))
        (x :: xs)
      rw [hf x d hx]
      exact List.Sublist.cons₂ x ih

theorem activeDrones_ids_nodup (world : WorldModel)
    (hwk : WellKeyedWorld world)
    (hnd : (world.drones.map (fun p => p.1)).Nodup) :
    ((activeDrones world).map (fun d => d.id)).Nodup := by
  have hsub := map_id_filterMap_sublist (fun id => getDrone world id)
    (fun j d h => getDrone_id hwk h) (getActiveDroneIds world)
  refine List.Nodup.sublist hsub ?_
  unfold getActiveDroneIds
  have h1 : List.Sublist
      (((world.drones.map (fun p => p.2)).filter
        (fun x => !x.stale)).map (fun d => d.id))
      ((world.drones.map (fun p => p.2)).map (fun d => d.id)) :=
    List.Sublist.map _ (List.filter_sublist _)
  refine List.Nodup.sublist h1 ?_
  rw [List.map_map]
  have h2 : world.drones.map ((fun d => d.id) ∘ (fun p => p.2)) =
      world.drones.map (fun p => p.1) :=
    List.map_congr_left (fun p hp => hwk p hp)
  rw [h2]
  exact hnd

/-- C2: low-battery safety override of role assignment.  For every world
whose drone map is well keyed with distinct keys, every non-stale drone
whose battery percentage is below the configured charge threshold and
whose current role (chi) is outside the charging lifecycle is mapped to
charger-inbound in the change map returned by assignRoles, for every
formation spec, coverage spec, configuration and optional role-tick-count
map (including tick counts below the hysteresis threshold): rule 1
establishes the entry in both the effective and the change map, rules 2
through 7 never touch a drone whose effective role is charger-inbound,
rule 8 exempts charger-inbound changes from hysteresis suppression, and
the final cleanup keeps the entry because the stored role differs from
charger-inbound. -/
theorem C2_low_battery_charger_override (world : WorldModel)
    (formation : FormationSpec) (coverage : CoverageSpec)
    (cfg : RoleAssignmentConfig)
    (roleTickCounts : Option (String → Option ℚ)) (did : String)
    (d : DroneState) (hwk : WellKeyedWorld world)
    (hnd : (world.drones.map (fun p => p.1)).Nodup)
    (hd : getDrone world did = some d) (hstale : d.stale = false)
    (hbatt : d.lastTelemetry.battery.percentage <
      cfg.batteryChargeThreshold)
    (hrole : chargingRole d.coordinate.chi = false) :
    alGet (assignRoles world formation coverage cfg roleTickCounts) did =
      some FormationRole.chargerInbound := by
  have hid : d.id = did := getDrone_id hwk hd
  have hmemA : d ∈ activeDrones world := mem_activeDrones hwk hd hstale
  have hnodA : ((activeDrones world).map (fun x => x.id)).Nodup :=
    activeDrones_ids_nodup world hwk hnd
  have h0 : alGet (initialEff (activeDrones world)) d.id =
      some d.coordinate.chi :=
    alGet_foldl_alSet_self (fun x => x.coordinate.chi)
      (activeDrones world) hnodA d hmemA []
  have hinv1 : RoleInv d.id (roleRule1 cfg (activeDrones world)
      ⟨initialEff (activeDrones world), []⟩) :=
    roleRule1_establish cfg d hbatt hrole (activeDrones world) hnodA hmemA
      ⟨initialEff (activeDrones world), []⟩ h0
  have hinv8 : RoleInv d.id (rolePipeline formation coverage cfg
      roleTickCounts (activeDrones world)) :=
    roleRule8_preserve cfg roleTickCounts d.id _
      (roleRule7_preserve formation (activeDrones world) d.id _
        (roleRule6_preserve formation (activeDrones world) d.id _
          (roleRule5_preserve formation cfg (activeDrones world) d.id _
            (roleRule4_preserve coverage cfg (activeDrones world) d.id _
              (roleRule3_preserve formation d.id (activeDrones world) _
                (roleRule2_preserve cfg d.id (activeDrones world) _
                  hinv1))))))
  have hchanges : alGet (rolePipeline formation coverage cfg roleTickCounts
      (activeDrones world)).changes did =
      some FormationRole.chargerInbound := by
    rw [← hid]
    exact hinv8.2
  have hchi : d.coordinate.chi ≠ FormationRole.chargerInbound := by
    intro hc
    rw [hc] at hrole
    exact Bool.noConfusion hrole
  have hf : (match getDrone world did with
      | some drone => decide (drone.coordinate.chi ≠
          FormationRole.chargerInbound)
      | none => true) = true := by
    rw [hd]
    show decide (d.coordinate.chi ≠ FormationRole.chargerInbound) = true
    exact decide_eq_true hchi
  unfold assignRoles roleCleanup
  exact alGet_filter_keep _ did FormationRole.chargerInbound _ hchanges hf

/-- Witness for C2: a fresh low-battery performer in a one-drone world
comes out mapped to charger-inbound even with a tick-count map putting it
below the hysteresis threshold. -/
theorem C2_low_battery_charger_override_witness :
    c2Drone.lastTelemetry.battery.percentage <
      DEFAULT_ROLE_CONFIG.batteryChargeThreshold ∧
    chargingRole c2Drone.coordinate.chi = false ∧
    alGet (assignRoles c2World c2Formation c2Coverage DEFAULT_ROLE_CONFIG
      c2Ticks) "c2d" = some FormationRole.chargerInbound :=
  ⟨by with_unfolding_all decide, by decide,
    C2_low_battery_charger_override c2World c2Formation c2Coverage
      DEFAULT_ROLE_CONFIG c2Ticks "c2d" c2Drone
      (by unfold WellKeyedWorld; decide) (by decide)
      (by with_unfolding_all decide) (by decide)
      (by with_unfolding_all decide) (by decide)⟩

-- =========================================================================
-- Claims C6 and C7: blast-radius cascade
-- =========================================================================

theorem cascadeStep_empty (world : WorldModel) (p : String → Bool)
    (s : CascadeState) (h : s.frontier = ∅) :
    cascadeStep world p s = s := by
  unfold cascadeStep
  rw [if_pos h]

theorem cascadeIter_empty (world : WorldModel) (p : String → Bool)
    (s : CascadeState) (h : s.frontier = ∅) :
    ∀ n : ℕ, (cascadeStep world p)^[n] s = s := by
  intro n
  induction n with
  | zero => rfl
  | succ n ih =>
    rw [Function.iterate_succ_apply, cascadeStep_empty world p s h]
    exact ih

theorem cascadeStep_of_ne (world : WorldModel) (p : String → Bool)
    (s : CascadeState) (h : ¬ s.frontier = ∅) :
    cascadeStep world p s =
      ⟨s.evaluated ∪ s.frontier,
       s.affected ∪ cascadeNewIds world p s,
       cascadeNewIds world p s \ (s.evaluated ∪ s.frontier)⟩ := by
  unfold cascadeStep
  rw [if_neg h]

theorem mem_foldl_union (f : String → Finset String) :
    ∀ (l : List String) (init : Finset String) (x : String),
      x ∈ l.foldl (fun acc id => acc ∪ f id) init ↔
        x ∈ init ∨ ∃ c ∈ l, x ∈ f c := by
  intro l
  induction l with
  | nil => intro init x; simp
  | cons c cs ih =>
    intro init x
    rw [List.foldl_cons, ih (init ∪ f c) x]
    constructor
    · rintro (h | h)
      · rcases Finset.mem_union.mp h with h | h
        · exact Or.inl h
        · exact Or.inr ⟨c, List.mem_cons_self c cs, h⟩
      · obtain ⟨d, hd, hx⟩ := h
        exact Or.inr ⟨d, List.mem_cons_of_mem c hd, hx⟩
    · rintro (h | ⟨d, hd, hx⟩)
      · exact Or.inl (Finset.mem_union_left _ h)
      · rcases List.mem_cons.mp hd with rfl | hd2
        · exact Or.inl (Finset.mem_union_right _ hx)
        · exact Or.inr ⟨d, hd2, hx⟩

theorem mem_blastBase (world : WorldModel) (l : List String) (x : String) :
    x ∈ blastBase world l ↔
      ∃ c ∈ l, x ∈ computeBlastRadius world c := by
  have h := mem_foldl_union (fun id => computeBlastRadius world id) l ∅ x
  simp only [Finset.not_mem_empty, false_or] at h
  exact h

theorem getDrone_none_of_not_key (world : WorldModel) (j : String)
    (h : j ∉ worldKeys world) : getDrone world j = none := by
  have hf : world.drones.find? (fun p => decide (p.1 = j)) = none := by
    rw [List.find?_eq_none]
    intro q hq
    simp only [decide_eq_true_eq]
    intro hc
    exact h (by
      unfold worldKeys
      rw [List.mem_toFinset]
      exact hc ▸ List.mem_map_of_mem (fun r => r.1) hq)
  unfold getDrone alGet
  rw [hf]
  rfl

theorem computeBlastRadius_unknown (world : WorldModel) (j : String)
    (h : getDrone world j = none) :
    computeBlastRadius world j = {j} := by
  unfold computeBlastRadius
  rw [h]

theorem cascadeInv_init (world : WorldModel) (p : String → Bool)
    (changed : List String) :
    CascadeInv world p changed.toFinset (cascadeInit world changed) := by
  refine ⟨Finset.sdiff_disjoint, fun x hx => hx, ?_, ?_⟩
  · intro x hx
    by_cases hc : x ∈ changed.toFinset
    · exact Finset.mem_union_left _ hc
    · exact Finset.mem_union_right _ (Finset.mem_sdiff.mpr ⟨hx, hc⟩)
  · intro j hj hjC _
    exact absurd hj hjC

theorem cascadeInv_step (world : WorldModel) (p : String → Bool)
    (C : Finset String) (s : CascadeState)
    (h : CascadeInv world p C s) :
    CascadeInv world p C (cascadeStep world p s) := by
  by_cases hfr : s.frontier = ∅
  · rw [cascadeStep_empty world p s hfr]; exact h
  · rw [cascadeStep_of_ne world p s hfr]
    obtain ⟨hdis, hC, haff, hclosed⟩ := h
    refine ⟨Finset.sdiff_disjoint, ?_, ?_, ?_⟩
    · exact fun x hx => Finset.mem_union_left _ (hC hx)
    · intro x hx
      rcases Finset.mem_union.mp hx with hx | hx
      · exact Finset.mem_union_left _ (haff hx)
      · by_cases hx2 : x ∈ s.evaluated ∪ s.frontier
        · exact Finset.mem_union_left _ hx2
        · exact Finset.mem_union_right _ (Finset.mem_sdiff.mpr ⟨hx, hx2⟩)
    · intro j hj hjC hpj
      rcases Finset.mem_union.mp hj with hj | hj
      · exact fun y hy =>
          Finset.mem_union_left _ (hclosed j hj hjC hpj hy)
      · intro y hy
        refine Finset.mem_union_right _ ?_
        unfold cascadeNewIds
        exact Finset.mem_biUnion.mpr
          ⟨j, Finset.mem_filter.mpr ⟨hj, hpj⟩, hy⟩

theorem cascadeInv_iter (world : WorldModel) (p : String → Bool)
    (changed : List String) (n : ℕ) :
    CascadeInv world p changed.toFinset
      ((cascadeStep world p)^[n] (cascadeInit world changed)) := by
  induction n with
  | zero => exact cascadeInv_init world p changed
  | succ n ih =>
    rw [Function.iterate_succ_apply']
    exact cascadeInv_step world p _ _ ih

theorem cascade_affected_mono_step (world : WorldModel)
    (p : String → Bool) (s : CascadeState) :
    s.affected ⊆ (cascadeStep world p s).affected := by
  by_cases hfr : s.frontier = ∅
  · rw [cascadeStep_empty world p s hfr]
  · rw [cascadeStep_of_ne world p s hfr]
    exact Finset.subset_union_left

theorem cascade_evaluated_mono_step (world : WorldModel)
    (p : String → Bool) (s : CascadeState) :
    s.evaluated ⊆ (cascadeStep world p s).evaluated := by
  by_cases hfr : s.frontier = ∅
  · rw [cascadeStep_empty world p s hfr]
  · rw [cascadeStep_of_ne world p s hfr]
    exact Finset.subset_union_left

theorem cascade_frontier_sub_next_eval (world : WorldModel)
    (p : String → Bool) (s : CascadeState) :
    s.frontier ⊆ (cascadeStep world p s).evaluated := by
  by_cases hfr : s.frontier = ∅
  · rw [hfr]; exact Finset.empty_subset _
  · rw [cascadeStep_of_ne world p s hfr]
    exact Finset.subset_union_right

theorem cascade_affected_mono (world : WorldModel) (p : String → Bool)
    (s : CascadeState) (k m : ℕ) (hkm : k ≤ m) :
    ((cascadeStep world p)^[k] s).affected ⊆
      ((cascadeStep world p)^[m] s).affected := by
  induction hkm with
  | refl => exact Finset.Subset.refl _
  | step h ih =>
    rw [Function.iterate_succ_apply']
    exact ih.trans (cascade_affected_mono_step world p _)

theorem cascade_evaluated_mono (world : WorldModel) (p : String → Bool)
    (s : CascadeState) (k m : ℕ) (hkm : k ≤ m) :
    ((cascadeStep world p)^[k] s).evaluated ⊆
      ((cascadeStep world p)^[m] s).evaluated := by
  induction hkm with
  | refl => exact Finset.Subset.refl _
  | step h ih =>
    rw [Function.iterate_succ_apply']
    exact ih.trans (cascade_evaluated_mono_step world p _)

theorem cascade_frontiers_disjoint (world : WorldModel)
    (p : String → Bool) (changed : List String) (k m : ℕ) (hkm : k < m) :
    Disjoint
      ((cascadeStep world p)^[k] (cascadeInit world changed)).frontier
      ((cascadeStep world p)^[m] (cascadeInit world changed)).frontier := by
  have hstep := cascade_frontier_sub_next_eval world p
    ((cascadeStep world p)^[k] (cascadeInit world changed))
  have hstep2 :
      ((cascadeStep world p)^[k] (cascadeInit world changed)).frontier ⊆
      ((cascadeStep world p)^[k + 1]
        (cascadeInit world changed)).evaluated := by
    rw [Function.iterate_succ_apply']
    exact hstep
  have hmono := cascade_evaluated_mono world p (cascadeInit world changed)
    (k + 1) m hkm
  have h1 := hstep2.trans hmono
  have hdis := (cascadeInv_iter world p changed m).1
  exact Finset.disjoint_left.mpr (fun x hxk hxm =>
    (Finset.disjoint_left.mp hdis) hxm (h1 hxk))

theorem cascadeStep_phantom (world : WorldModel) (p : String → Bool)
    (s : CascadeState) (hph : ∀ j ∈ s.frontier, j ∉ worldKeys world) :
    (cascadeStep world p s).frontier = ∅ := by
  by_cases hfr : s.frontier = ∅
  · rw [cascadeStep_empty world p s hfr]; exact hfr
  · rw [cascadeStep_of_ne world p s hfr]
    show cascadeNewIds world p s \ (s.evaluated ∪ s.frontier) = ∅
    rw [Finset.sdiff_eq_empty_iff_subset]
    intro x hx
    unfold cascadeNewIds at hx
    obtain ⟨j, hj, hxj⟩ := Finset.mem_biUnion.mp hx
    have hjf : j ∈ s.frontier := (Finset.mem_filter.mp hj).1
    have hbr : computeBlastRadius world j = {j} :=
      computeBlastRadius_unknown world j
        (getDrone_none_of_not_key world j (hph j hjf))
    rw [hbr] at hxj
    rw [Finset.mem_singleton.mp hxj]
    exact Finset.mem_union_right _ hjf

theorem cascade_measure_lt (world : WorldModel) (p : String → Bool)
    (s : CascadeState) (hdis : Disjoint s.frontier s.evaluated)
    (x : String) (hx : x ∈ s.frontier) (hxk : x ∈ worldKeys world) :
    (worldKeys world \ (cascadeStep world p s).evaluated).card <
      (worldKeys world \ s.evaluated).card := by
  have hfr : ¬ s.frontier = ∅ := fun hc => by
    rw [hc] at hx
    exact absurd hx (Finset.not_mem_empty x)
  rw [cascadeStep_of_ne world p s hfr]
  show (worldKeys world \ (s.evaluated ∪ s.frontier)).card < _
  have hsub : worldKeys world \ (s.evaluated ∪ s.frontier) ⊆
      worldKeys world \ s.evaluated := by
    intro y hy
    have h2 := Finset.mem_sdiff.mp hy
    exact Finset.mem_sdiff.mpr
      ⟨h2.1, fun hc => h2.2 (Finset.mem_union_left _ hc)⟩
  apply Finset.card_lt_card
  rw [Finset.ssubset_iff_of_subset hsub]
  exact ⟨x,
    Finset.mem_sdiff.mpr ⟨hxk, Finset.disjoint_left.mp hdis hx⟩,
    fun hc => (Finset.mem_sdiff.mp hc).2 (Finset.mem_union_right _ hx)⟩

theorem cascadeStep_disjoint (world : WorldModel) (p : String → Bool)
    (s : CascadeState) (h : Disjoint s.frontier s.evaluated) :
    Disjoint (cascadeStep world p s).frontier
      (cascadeStep world p s).evaluated := by
  by_cases hfr : s.frontier = ∅
  · rw [cascadeStep_empty world p s hfr]; exact h
  · rw [cascadeStep_of_ne world p s hfr]
    exact Finset.sdiff_disjoint

theorem cascade_empty_of_measure (world : WorldModel) (p : String → Bool) :
    ∀ (n : ℕ) (s : CascadeState), Disjoint s.frontier s.evaluated →
      (worldKeys world \ s.evaluated).card ≤ n →
      ((cascadeStep world p)^[n + 1] s).frontier = ∅ := by
  intro n
  induction n with
  | zero =>
    intro s hdis hcard
    rw [Function.iterate_succ_apply, Function.iterate_zero_apply]
    by_cases hph : ∀ j ∈ s.frontier, j ∉ worldKeys world
    · exact cascadeStep_phantom world p s hph
    · exfalso
      push_neg at hph
      obtain ⟨j, hj, hjk⟩ := hph
      have h0 : 0 < (worldKeys world \ s.evaluated).card :=
        Finset.card_pos.mpr
          ⟨j, Finset.mem_sdiff.mpr
            ⟨hjk, Finset.disjoint_left.mp hdis hj⟩⟩
      omega
  | succ n ih =>
    intro s hdis hcard
    by_cases hfr : s.frontier = ∅
    · rw [cascadeIter_empty world p s hfr]; exact hfr
    · by_cases hph : ∀ j ∈ s.frontier, j ∉ worldKeys world
      · have h1 : (cascadeStep world p s).frontier = ∅ :=
          cascadeStep_phantom world p s hph
        rw [Function.iterate_succ_apply]
        rw [cascadeIter_empty world p (cascadeStep world p s) h1 (n + 1)]
        exact h1
      · push_neg at hph
        obtain ⟨j, hj, hjk⟩ := hph
        rw [Function.iterate_succ_apply]
        apply ih
        · exact cascadeStep_disjoint world p s hdis
        · have hlt := cascade_measure_lt world p s hdis j hj hjk
          omega

theorem cascade_terminates (world : WorldModel) (p : String → Bool)
    (changed : List String) :
    ((cascadeStep world p)^[world.drones.length]
      (cascadeInit world changed)).frontier = ∅ := by
  by_cases hfr : (cascadeInit world changed).frontier = ∅
  · rw [cascadeIter_empty world p _ hfr]; exact hfr
  · have hex : ∃ c ∈ changed, c ∈ worldKeys world := by
      obtain ⟨x, hx⟩ := Finset.nonempty_iff_ne_empty.mpr hfr
      have hx2 : x ∈ blastBase world changed ∧ x ∉ changed.toFinset :=
        Finset.mem_sdiff.mp hx
      obtain ⟨c, hc, hxc⟩ := (mem_blastBase world changed x).mp hx2.1
      by_cases hck : c ∈ worldKeys world
      · exact ⟨c, hc, hck⟩
      · exfalso
        have hbr := computeBlastRadius_unknown world c
          (getDrone_none_of_not_key world c hck)
        rw [hbr] at hxc
        rw [Finset.mem_singleton.mp hxc] at hx2
        exact hx2.2 (List.mem_toFinset.mpr hc)
    obtain ⟨c, hc, hck⟩ := hex
    have hNpos : 1 ≤ world.drones.length := by
      unfold worldKeys at hck
      rw [List.mem_toFinset] at hck
      obtain ⟨q, hq, _⟩ := List.mem_map.mp hck
      cases hl : world.drones with
      | nil => rw [hl] at hq; exact absurd hq (List.not_mem_nil q)
      | cons a l => simp
    have hcard : (worldKeys world \
        (cascadeInit world changed).evaluated).card ≤
        world.drones.length - 1 := by
      have hsub : worldKeys world \ (cascadeInit world changed).evaluated
          ⊆ (worldKeys world).erase c := by
        intro y hy
        have h2 := Finset.mem_sdiff.mp hy
        refine Finset.mem_erase.mpr ⟨?_, h2.1⟩
        intro hyc
        exact h2.2 (show y ∈ changed.toFinset by
          rw [hyc]; exact List.mem_toFinset.mpr hc)
      have h3 := Finset.card_le_card hsub
      rw [Finset.card_erase_of_mem hck] at h3
      have h4 : (worldKeys world).card ≤ world.drones.length := by
        unfold worldKeys
        have h5 := List.toFinset_card_le
          (world.drones.map (fun q => q.1))
        rw [List.length_map] at h5
        exact h5
      omega
    have hfin := cascade_empty_of_measure world p
      (world.drones.length - 1) (cascadeInit world changed)
      (cascadeInv_init world p changed).1 hcard
    rw [Nat.sub_add_cancel hNpos] at hfin
    exact hfin

theorem cascade_sound_step (world : WorldModel) (p : String → Bool)
    (C A : Finset String)
    (hclosed : ∀ j ∈ A, j ∉ C → p j = true →
      computeBlastRadius world j ⊆ A)
    (s : CascadeState) (haff : s.affected ⊆ A) (hfro : s.frontier ⊆ A)
    (hCE : C ⊆ s.evaluated) (hdisC : Disjoint s.frontier C) :
    (cascadeStep world p s).affected ⊆ A ∧
    (cascadeStep world p s).frontier ⊆ A ∧
    C ⊆ (cascadeStep world p s).evaluated ∧
    Disjoint (cascadeStep world p s).frontier C := by
  by_cases hfr : s.frontier = ∅
  · rw [cascadeStep_empty world p s hfr]
    exact ⟨haff, hfro, hCE, hdisC⟩
  · rw [cascadeStep_of_ne world p s hfr]
    have hnew : cascadeNewIds world p s ⊆ A := by
      intro x hx
      unfold cascadeNewIds at hx
      obtain ⟨j, hj, hxj⟩ := Finset.mem_biUnion.mp hx
      have hjf := (Finset.mem_filter.mp hj).1
      have hpj := (Finset.mem_filter.mp hj).2
      exact hclosed j (hfro hjf)
        (Finset.disjoint_left.mp hdisC hjf) hpj hxj
    refine ⟨Finset.union_subset haff hnew,
      Finset.sdiff_subset.trans hnew,
      fun x hx => Finset.mem_union_left _ (hCE hx), ?_⟩
    refine Finset.disjoint_left.mpr ?_
    intro x hxf hxC
    exact (Finset.mem_sdiff.mp hxf).2
      (Finset.mem_union_left _ (hCE hxC))

theorem cascade_sound (world : WorldModel) (p : String → Bool)
    (C A : Finset String)
    (hclosed : ∀ j ∈ A, j ∉ C → p j = true →
      computeBlastRadius world j ⊆ A) :
    ∀ (n : ℕ) (s : CascadeState), s.affected ⊆ A → s.frontier ⊆ A →
      C ⊆ s.evaluated → Disjoint s.frontier C →
      ((cascadeStep world p)^[n] s).affected ⊆ A := by
  intro n
  induction n with
  | zero => intro s haff _ _ _; exact haff
  | succ n ih =>
    intro s haff hfro hCE hdisC
    rw [Function.iterate_succ_apply]
    obtain ⟨h1, h2, h3, h4⟩ :=
      cascade_sound_step world p C A hclosed s haff hfro hCE hdisC
    exact ih (cascadeStep world p s) h1 h2 h3 h4

/-- C7: the cascade of computeCascadingBlastRadius terminates.  Starting
from the initial state, the frontier is provably empty after at most
world.drones.length iterations of the loop body (so the while-loop runs at
most N iterations for N drones: an eliminated frontier stays eliminated,
as an empty frontier is a fixed point), and the frontiers of distinct
iterations are pairwise disjoint — since each iteration adds exactly its
frontier to the evaluated set and invokes the predicate exactly on its
frontier members, each drone id enters evaluated at most once and the
predicate is invoked at most once per drone id. -/
theorem C7_cascade_termination (world : WorldModel) (p : String → Bool)
    (changed : List String) :
    ((cascadeStep world p)^[world.drones.length]
      (cascadeInit world changed)).frontier = ∅ ∧
    (∀ k m : ℕ, k < m →
      Disjoint
        ((cascadeStep world p)^[k] (cascadeInit world changed)).frontier
        ((cascadeStep world p)^[m]
          (cascadeInit world changed)).frontier) :=
  ⟨cascade_terminates world p changed,
   fun k m hkm => cascade_frontiers_disjoint world p changed k m hkm⟩

/-- Witness for C7: the cascade on the concrete three-drone world with an
always-true predicate, plus the disjointness of the first two frontiers. -/
theorem C7_cascade_termination_witness :
    ((cascadeStep c9World (fun _ => true))^[c9World.drones.length]
      (cascadeInit c9World ["f"])).frontier = ∅ ∧
    (0 : ℕ) < 1 ∧
    Disjoint
      ((cascadeStep c9World (fun _ => true))^[0]
        (cascadeInit c9World ["f"])).frontier
      ((cascadeStep c9World (fun _ => true))^[1]
        (cascadeInit c9World ["f"])).frontier :=
  ⟨(C7_cascade_termination c9World (fun _ => true) ["f"]).1,
   by decide,
   (C7_cascade_termination c9World (fun _ => true) ["f"]).2 0 1
     (by decide)⟩

/-- C6: the cascading blast radius is monotone in the initial change set.
For every world, every optional would-change predicate and every two
initial change lists C ⊆ C', the affected set computed for C' contains the
affected set computed for C.  Without a predicate both sides are unions of
initial radii; with one, the C'-run's final affected set contains the base
of C' and is closed under expanding predicate-true non-initial members (an
initial member of C' has its radius inside the C'-base), so the C-run
stays inside it. -/
theorem C6_blast_radius_monotone (world : WorldModel)
    (wouldChange : Option (String → Bool)) (C C' : List String)
    (hsub : ∀ c ∈ C, c ∈ C') :
    computeCascadingBlastRadius C world wouldChange ⊆
      computeCascadingBlastRadius C' world wouldChange := by
  cases wouldChange with
  | none =>
    intro x hx
    show x ∈ blastBase world C'
    obtain ⟨c, hc, hxc⟩ := (mem_blastBase world C x).mp hx
    exact (mem_blastBase world C' x).mpr ⟨c, hsub c hc, hxc⟩
  | some p =>
    intro x hx
    show x ∈ ((cascadeStep world p)^[world.drones.length]
      (cascadeInit world C')).affected
    have hinv' := cascadeInv_iter world p C' world.drones.length
    have hfr' := cascade_terminates world p C'
    have hbase' : blastBase world C' ⊆
        ((cascadeStep world p)^[world.drones.length]
          (cascadeInit world C')).affected :=
      cascade_affected_mono world p (cascadeInit world C') 0
        world.drones.length (Nat.zero_le _)
    have hclosed : ∀ j ∈ ((cascadeStep world p)^[world.drones.length]
          (cascadeInit world C')).affected, j ∉ C.toFinset →
        p j = true → computeBlastRadius world j ⊆
          ((cascadeStep world p)^[world.drones.length]
            (cascadeInit world C')).affected := by
      intro j hj hjC hpj
      by_cases hjC' : j ∈ C'
      · intro y hy
        exact hbase' ((mem_blastBase world C' y).mpr ⟨j, hjC', hy⟩)
      · have hj2 : j ∈ ((cascadeStep world p)^[world.drones.length]
            (cascadeInit world C')).evaluated := by
          have h3 := hinv'.2.2.1 hj
          rcases Finset.mem_union.mp h3 with h | h
          · exact h
          · rw [hfr'] at h
            exact absurd h (Finset.not_mem_empty j)
        exact hinv'.2.2.2 j hj2
          (fun hcf => hjC' (List.mem_toFinset.mp hcf)) hpj
    refine cascade_sound world p C.toFinset _ hclosed
      world.drones.length (cascadeInit world C) ?_ ?_ ?_ ?_ hx
    · intro y hy
      obtain ⟨c, hc, hyc⟩ := (mem_blastBase world C y).mp hy
      exact hbase' ((mem_blastBase world C' y).mpr ⟨c, hsub c hc, hyc⟩)
    · intro y hy
      have h2 := Finset.mem_sdiff.mp hy
      obtain ⟨c, hc, hyc⟩ := (mem_blastBase world C y).mp h2.1
      exact hbase' ((mem_blastBase world C' y).mpr ⟨c, hsub c hc, hyc⟩)
    · exact fun y hy => hy
    · exact Finset.sdiff_disjoint

/-- Witness for C6: monotonicity evaluated on the concrete three-drone
world with an always-true predicate and change sets under inclusion. -/
theorem C6_blast_radius_monotone_witness :
    (∀ c ∈ ["f"], c ∈ ["f", "l1"]) ∧
    computeCascadingBlastRadius ["f"] c9World (some (fun _ => true)) ⊆
      computeCascadingBlastRadius ["f", "l1"] c9World
        (some (fun _ => true)) :=
  ⟨by decide,
   C6_blast_radius_monotone c9World (some (fun _ => true)) ["f"]
     ["f", "l1"] (by decide)⟩
